import Mathlib

/-!
Shallow embedding of the inventory-concurrency core of the Sirius e-commerce
API (Fastify/TypeScript/Prisma): the distributed lock (src/src/utils/
distributed-lock.ts), the cart reservation ledger (CartService), the order
orchestrator (OrderService) and the payment service
(src/src/services/payment.service.ts).

Modelling conventions:
* The relational store is a record of lists (`DB`); Prisma queries become
  `List.find?` / `List.filter` over those lists, in source order.
* `prisma.$transaction(body)` is embedded by threading the state through the
  body in the `Except` monad: an error discards the partially mutated state,
  so the caller observes the pre-transaction state (rollback).
* Timestamps are naturals; `Date.now()` / `new Date()` become an explicit
  `now` parameter.  Durations keep the source arithmetic in milliseconds.
* Ids are allocated from a `nextId` counter.
* String-valued display fields (names, shipping address text, images) are
  omitted: no modelled operation reads them.
* The nondeterministic payment gateway (`simulatePaymentGateway`, which
  calls Math.random) is passed in as an explicit boolean outcome.
* `DistributedLock.withLock` serialises access in the real system; in this
  sequential embedding the body runs directly.  Race-recovery branches
  (create-cart catch handlers) are unreachable sequentially and collapse to
  the non-racing path.
* The trailing `getCart` read-back of the cart endpoints (a self-healing
  sweep of expired/zero-stock rows plus response formatting) is a separate
  read path; the theorems below are about the durable upsert/merge state.
-/

namespace ECom

/-- Order status, from src/src/types/order.ts `OrderStatus`. -/
inductive OrderStatus where
  | PENDING
  | CONFIRMED
  | SHIPPED
  | DELIVERED
  | CANCELLED
deriving DecidableEq, Repr

/-- Payment status, from src/src/services/payment.service.ts `PaymentStatus`
(the service-local enum, which includes PROCESSING). -/
inductive PaymentStatus where
  | PENDING
  | PROCESSING
  | PAID
  | FAILED
  | REFUNDED
deriving DecidableEq, Repr

/-- A product row: id, seller, price, authoritative stock.
Stock is an `Int` so that non-negativity (claim C1) is a statement, not a
typing artifact. -/
structure Product where
  id : Nat
  sellerId : Nat
  price : Int
  stock : Int
deriving DecidableEq, Repr

/-- An address row (only the ownership fields are read by the core). -/
structure Address where
  id : Nat
  userId : Nat
deriving DecidableEq, Repr

/-- A cart row: owner is a user id or an anonymous session id; anonymous
carts carry an absolute expiry. -/
structure Cart where
  id : Nat
  userId : Option Nat
  sessionId : Option Nat
  expiresAt : Option Nat
deriving DecidableEq, Repr

/-- A cart item row: soft reservation of `quantity` units of a product.
`reservationExpiresAt = none` is an authenticated (non-expiring) hold. -/
structure CartItem where
  id : Nat
  cartId : Nat
  productId : Nat
  quantity : Nat
  reservationExpiresAt : Option Nat
deriving DecidableEq, Repr

/-- An order row; parent orders have `isParent = true` and no seller,
sub-orders reference their parent and a seller. -/
structure Order where
  id : Nat
  userId : Nat
  parentOrderId : Option Nat
  sellerId : Option Nat
  addressId : Nat
  totalAmount : Int
  status : OrderStatus
  paymentStatus : PaymentStatus
  isParent : Bool
deriving DecidableEq, Repr

/-- An order item row (line of a sub-order); price frozen at purchase. -/
structure OrderItem where
  id : Nat
  orderId : Nat
  productId : Nat
  sellerId : Nat
  quantity : Nat
  price : Int
  status : OrderStatus
deriving DecidableEq, Repr

/-- The relational store. -/
structure DB where
  nextId : Nat
  products : List Product
  addresses : List Address
  carts : List Cart
  cartItems : List CartItem
  orders : List Order
  orderItems : List OrderItem
deriving DecidableEq, Repr

deriving instance DecidableEq for Except

/-- Error kinds thrown by the services (Error messages in the source). -/
inductive Err where
  | emptyCart
  | notFound
  | reservationExpired
  | insufficientStock
  | invalidTransition
  | cannotCancel
  | invalidInput
deriving DecidableEq, Repr

/-! ## Distributed lock (src/src/utils/distributed-lock.ts)

The Redis store backing the lock is a list of key/value pairs; `SET`,
`GET`, `DEL` act on it as on a key-value map. -/

/-- The Redis key used for a lock: `lock:${key}`. -/
def lockKeyOf (key : String) : String := "lock:" ++ key

/-- The Redis store as seen by the lock manager. -/
abbrev RedisStore := List (String × String)

/-- `redis.get k`. -/
def redisGet (s : RedisStore) (k : String) : Option String :=
  (s.find? (fun e => e.1 == k)).map (·.2)

/-- `redis.del k`: removes every entry of the key, returns the number of
removed keys (1 on a well-formed store holding the key, 0 otherwise). -/
def redisDel (s : RedisStore) (k : String) : RedisStore × Nat :=
  (s.filter (fun e => !(e.1 == k)), (s.filter (fun e => e.1 == k)).length)

/-- `DistributedLock.release(key, token)`: the Lua script atomically compares
the stored token and deletes the key only on a match; the call returns
`result === 1`. -/
def release (s : RedisStore) (key token : String) : RedisStore × Bool :=
  if redisGet s (lockKeyOf key) == some token then
    let d := redisDel s (lockKeyOf key)
    (d.1, d.2 == 1)
  else
    (s, false)

/-! ### Claim C10 -/

theorem redisGet_after_del (s : RedisStore) (k : String) :
    redisGet (redisDel s k).1 k = none := by
  simp only [redisGet, redisDel]
  cases h : (s.filter (fun e => !(e.1 == k))).find? (fun e => e.1 == k) with
  | none => simp
  | some e =>
    exfalso
    have hmem := List.mem_of_find?_eq_some h
    have hpred := List.find?_some h
    have := List.of_mem_filter hmem
    simp only [Bool.not_eq_true'] at this
    rw [this] at hpred
    exact Bool.false_ne_true hpred

/-- **C10.** `release(key, token)` is idempotent with respect to repeated
invocation: after a successful release returning `true`, a second release
with the same key and token finds no matching token, deletes nothing, and
returns `false`. -/
theorem release_idempotent (s s' : RedisStore) (key token : String)
    (h : release s key token = (s', true)) :
    release s' key token = (s', false) := by
  have hs' : s' = (redisDel s (lockKeyOf key)).1 := by
    by_cases hc : redisGet s (lockKeyOf key) == some token
    · simp only [release, hc, if_pos rfl] at h
      exact (Prod.mk.injEq _ _ _ _ ▸ h).1.symm
    · simp [release, hc] at h
  have hnone : redisGet s' (lockKeyOf key) = none := by
    rw [hs']; exact redisGet_after_del s (lockKeyOf key)
  simp [release, hnone]

/-- Witness for C10 at a concrete store holding the lock. -/
theorem release_idempotent_witness :
    release [(lockKeyOf "product:1:stock", "tok")] "product:1:stock" "tok"
      = ([], true)
    ∧ release [] "product:1:stock" "tok" = ([], false) := by
  constructor
  · rfl
  · exact release_idempotent [(lockKeyOf "product:1:stock", "tok")] []
      "product:1:stock" "tok" rfl

/-! ## Cart service (CartService, src/services/cart.service.ts) -/

/-- Reservation TTL: `RESERVATION_TTL_MINUTES = 15`, applied as
`now + 15 * 60 * 1000` ms. -/
def RESERVATION_TTL : Nat := 15 * 60 * 1000

/-- Anonymous cart TTL: `ANONYMOUS_CART_TTL_HOURS = 24`. -/
def ANON_CART_TTL : Nat := 24 * 60 * 60 * 1000

/-- A reservation row is *active* at `now` when
`reservation_expires_at > now` or `reservation_expires_at IS NULL`
(authenticated hold) — the `OR` filter of every availability aggregate. -/
def CartItem.active (it : CartItem) (now : Nat) : Bool :=
  match it.reservationExpiresAt with
  | some t => now < t
  | none => true

/-- `prisma.product.findUnique({ where: { id } })`. -/
def findProduct (db : DB) (pid : Nat) : Option Product :=
  db.products.find? (fun p => p.id == pid)

/-- The first availability aggregate of `addToCart`: sum of quantities of
**all** active cart items for the product (no cart or row excluded). -/
def reservedAll (db : DB) (pid now : Nat) : Nat :=
  ((db.cartItems.filter (fun it =>
    it.productId == pid && it.active now)).map (·.quantity)).sum

/-- The repeat-add / update aggregate: active reservations for the product
excluding one cart-item row (`id: { not: itemId }`). -/
def reservedExcludingItem (db : DB) (pid itemId now : Nat) : Nat :=
  ((db.cartItems.filter (fun it =>
    it.productId == pid && it.id != itemId && it.active now)).map
      (·.quantity)).sum

/-- The `createOrder` pre-check aggregate: active reservations for the
product from carts other than the given cart (`cart_id: { not: cart.id }`). -/
def reservedByOtherCarts (db : DB) (pid cartId now : Nat) : Nat :=
  ((db.cartItems.filter (fun it =>
    it.productId == pid && it.cartId != cartId && it.active now)).map
      (·.quantity)).sum

/-- `prisma.cart.findFirst({ where: { user_id: userId } })`. -/
def findUserCart (db : DB) (userId : Nat) : Option Cart :=
  db.carts.find? (fun c => c.userId == some userId)

/-- `prisma.cart.findFirst({ where: { session_id, user_id: null } })`. -/
def findAnonCart (db : DB) (sessionId : Nat) : Option Cart :=
  db.carts.find? (fun c => c.sessionId == some sessionId && c.userId == none)

/-- The same query ordered by `created_at: 'desc'` (most recent first);
creation order is list order, so this is the last match. -/
def findAnonCartLatest (db : DB) (sessionId : Nat) : Option Cart :=
  db.carts.reverse.find? (fun c =>
    c.sessionId == some sessionId && c.userId == none)

/-- `prisma.cartItem.findUnique({ where: { cart_id_product_id } })`. -/
def findCartItem (db : DB) (cartId pid : Nat) : Option CartItem :=
  db.cartItems.find? (fun it => it.cartId == cartId && it.productId == pid)

/-- The find-or-create cart section of `addToCart`: look the cart up by
user id (else by session id with `user_id: null`); when absent, create it
(anonymous carts get the 24h absolute expiry).  The duplicate-key re-query
of the source is a concurrency-race recovery, unreachable sequentially. -/
def resolveCart (db : DB) (now : Nat) (userId sessionId : Option Nat) :
    DB × Cart :=
  let found : Option Cart :=
    match userId with
    | some u => findUserCart db u
    | none =>
      match sessionId with
      | some s => findAnonCart db s
      | none => none
  match found with
  | some c => (db, c)
  | none =>
    let expiresAt : Option Nat :=
      match sessionId with
      | some _ => some (now + ANON_CART_TTL)
      | none => none
    let c : Cart :=
      { id := db.nextId, userId := userId, sessionId := sessionId,
        expiresAt := expiresAt }
    ({ db with nextId := db.nextId + 1, carts := db.carts ++ [c] }, c)

/-- `CartService.addToCart(userId, sessionId, { product_id, quantity })`,
the durable part (the body under `DistributedLock.withLock`):
guard, product fetch, first availability check over **all** active
reservations, find-or-create cart, then replace-or-create of the cart item
with a refreshed reservation.  The repeat-add branch re-checks availability
excluding the cart's own existing row. -/
def addToCart (db : DB) (now : Nat) (userId sessionId : Option Nat)
    (pid qty : Nat) : Except Err DB :=
  if userId = none ∧ sessionId = none then .error .invalidInput
  else
    match findProduct db pid with
    | none => .error .notFound
    | some product =>
      if product.stock - (reservedAll db pid now : Int) < (qty : Int) then
        .error .insufficientStock
      else
        match findCartItem (resolveCart db now userId sessionId).1
            (resolveCart db now userId sessionId).2.id pid with
        | some existingItem =>
          if product.stock -
              (reservedExcludingItem (resolveCart db now userId sessionId).1
                pid existingItem.id now : Int) < (qty : Int) then
            .error .insufficientStock
          else
            .ok { (resolveCart db now userId sessionId).1 with
              cartItems :=
                (resolveCart db now userId sessionId).1.cartItems.map
                  (fun it =>
                    if it.id == existingItem.id then
                      { it with
                        quantity := qty,
                        reservationExpiresAt :=
                          some (now + RESERVATION_TTL) }
                    else it) }
        | none =>
          .ok { (resolveCart db now userId sessionId).1 with
            nextId := (resolveCart db now userId sessionId).1.nextId + 1,
            cartItems := (resolveCart db now userId sessionId).1.cartItems ++
              [{ id := (resolveCart db now userId sessionId).1.nextId,
                 cartId := (resolveCart db now userId sessionId).2.id,
                 productId := pid, quantity := qty,
                 reservationExpiresAt := some (now + RESERVATION_TTL) }] }

/-- Deleting a cart cascades to its items
(`CartItem_cart_id_fkey ... ON DELETE CASCADE`). -/
def deleteCart (db : DB) (cartId : Nat) : DB :=
  { db with
    carts := db.carts.filter (fun c => !(c.id == cartId)),
    cartItems := db.cartItems.filter (fun it => !(it.cartId == cartId)) }

/-- One iteration of the merge loop of `CartService.mergeAnonymousCart`
(the body under the product lock): find the destination row, recompute the
reserved sum excluding the destination row only (the source row still
counts while its reservation is active), then either sum quantities into
the destination or create a new row — each all-or-nothing, skipping the
item when the availability test fails.  `srcStock` is
`anonymousItem.product.stock` from the initial include. -/
def mergeStep (db : DB) (now userCartId : Nat) (srcStock : Int)
    (anonItem : CartItem) : DB :=
  match findCartItem db userCartId anonItem.productId with
  | some e =>
    if ((e.quantity + anonItem.quantity : Nat) : Int) - (e.quantity : Int) ≤
        srcStock -
          (reservedExcludingItem db anonItem.productId e.id now : Int) then
      { db with cartItems := db.cartItems.map (fun it =>
        if it.id == e.id then
          { it with quantity := e.quantity + anonItem.quantity,
                    reservationExpiresAt := some (now + RESERVATION_TTL) }
        else it) }
    else db
  | none =>
    if (anonItem.quantity : Int) ≤
        srcStock - (reservedAll db anonItem.productId now : Int) then
      { db with
        nextId := db.nextId + 1,
        cartItems := db.cartItems ++
          [{ id := db.nextId, cartId := userCartId,
             productId := anonItem.productId, quantity := anonItem.quantity,
             reservationExpiresAt := some (now + RESERVATION_TTL) }] }
    else db

/-- The merge loop over the anonymous cart's items (initial include order).
Every item's product is resolved from the initial fetch; a missing product
would fault the include, modelled as `notFound`. -/
def mergeLoop (db0 : DB) (now userCartId : Nat) :
    DB → List CartItem → Except Err DB
  | db, [] => .ok db
  | db, it :: rest =>
    match findProduct db0 it.productId with
    | none => .error .notFound
    | some p => mergeLoop db0 now userCartId (mergeStep db now userCartId p.stock it) rest

/-- `CartService.mergeAnonymousCart(userId, sessionId)`: fetch the most
recent anonymous cart of the session; if absent or empty, no mutation;
otherwise find-or-create the user cart, merge each anonymous item under the
product's lock, and delete the anonymous cart afterward — all in one
transaction. -/
def mergeAnonymousCart (db : DB) (now userId sessionId : Nat) :
    Except Err DB :=
  match findAnonCartLatest db sessionId with
  | none => .ok db
  | some anonCart =>
    if (db.cartItems.filter (fun it => it.cartId == anonCart.id)).isEmpty then
      .ok db
    else
      match findUserCart db userId with
      | some c =>
        do
          let db2 ← mergeLoop db now c.id db
            (db.cartItems.filter (fun it => it.cartId == anonCart.id))
          .ok (deleteCart db2 anonCart.id)
      | none =>
        do
          let db2 ← mergeLoop db now db.nextId
            { db with
              nextId := db.nextId + 1,
              carts := db.carts ++
                [{ id := db.nextId, userId := some userId, sessionId := none,
                   expiresAt := none }] }
            (db.cartItems.filter (fun it => it.cartId == anonCart.id))
          .ok (deleteCart db2 anonCart.id)

/-! ## Stock ledger primitives (OrderService, src/services/order.service.ts) -/

/-- `tx.product.updateMany({ where: { id, stock: { gte: qty } }, data:
{ stock: { decrement: qty } } })`: the conditional decrement; returns the
updated store and the affected-row count. -/
def decrementIfAvailable (db : DB) (pid qty : Nat) : DB × Nat :=
  ({ db with products := db.products.map (fun p =>
      if p.id == pid && (qty : Int) ≤ p.stock then
        { p with stock := p.stock - (qty : Int) }
      else p) },
   (db.products.filter (fun p => p.id == pid && (qty : Int) ≤ p.stock)).length)

/-- `tx.product.update({ where: { id }, data: { stock: { increment: qty } } })`:
the unconditional restore; a unique update faults when the row is absent. -/
def incrementStock (db : DB) (pid qty : Nat) : Except Err DB :=
  if (db.products.find? (fun p => p.id == pid)).isSome then
    .ok { db with products := db.products.map (fun p =>
      if p.id == pid then { p with stock := p.stock + (qty : Int) } else p) }
  else .error .notFound

/-! ## Order orchestrator: createOrder -/

/-- A cart line enriched with its product's seller and current price
(the `include: { product: { include: { seller } } }` of the cart fetch). -/
structure OrderLine where
  productId : Nat
  sellerId : Nat
  quantity : Nat
  price : Int
deriving DecidableEq, Repr

/-- The reservation-expiry test of the pre-check loop:
`item.reservation_expires_at && item.reservation_expires_at < now`. -/
def CartItem.resExpired (it : CartItem) (now : Nat) : Bool :=
  match it.reservationExpiresAt with
  | some t => t < now
  | none => false

/-- The `createOrder` pre-check loop: per item, refetch the product (error
if gone), reject expired reservations, and reject when
`stock - reservedByOtherCarts < quantity`. -/
def precheckItems (db : DB) (now cartId : Nat) :
    List CartItem → Except Err Unit
  | [] => .ok ()
  | item :: rest =>
    match findProduct db item.productId with
    | none => .error .notFound
    | some currentProduct =>
      if item.resExpired now then .error .reservationExpired
      else
        let availableStock : Int :=
          currentProduct.stock -
            (reservedByOtherCarts db item.productId cartId now : Int)
        if availableStock < (item.quantity : Int) then
          .error .insufficientStock
        else precheckItems db now cartId rest

/-- Resolve a cart item to its included product data (seller, price). -/
def toOrderLine (db : DB) (it : CartItem) : Option OrderLine :=
  (findProduct db it.productId).map (fun p =>
    { productId := it.productId, sellerId := p.sellerId,
      quantity := it.quantity, price := p.price })

/-- Resolve every cart item (the include delivers the product relation; an
absent product faults). -/
def enrichItems (db : DB) : List CartItem → Except Err (List OrderLine)
  | [] => .ok []
  | it :: rest =>
    match toOrderLine db it with
    | none => .error .notFound
    | some l => do
      let ls ← enrichItems db rest
      .ok (l :: ls)

/-- One step of the `reduce` that groups cart items by seller
(`acc[sellerId].push(item)`, insertion-ordered keys). -/
def insertGroup (acc : List (Nat × List OrderLine)) (sid : Nat)
    (l : OrderLine) : List (Nat × List OrderLine) :=
  match acc with
  | [] => [(sid, [l])]
  | (k, g) :: rest =>
    if k = sid then (k, g ++ [l]) :: rest
    else (k, g) :: insertGroup rest sid l

/-- `itemsBySeller`: group the enriched lines by seller id. -/
def groupBySeller (lines : List OrderLine) : List (Nat × List OrderLine) :=
  lines.foldl (fun acc l => insertGroup acc l.sellerId l) []

/-- `tx.orderItem.create` for one line of a sub-order. -/
def createOrderItemRow (db : DB) (subId : Nat) (l : OrderLine) : DB :=
  { db with
    nextId := db.nextId + 1,
    orderItems := db.orderItems ++
      [{ id := db.nextId, orderId := subId, productId := l.productId,
         sellerId := l.sellerId, quantity := l.quantity, price := l.price,
         status := .PENDING }] }

/-- The per-item body of the checkout transaction (under the product's
lock): reload the product, verify stock, decrement conditionally
(`InsufficientStock` unless exactly the guarded row was affected), then
create the order item. -/
def deductAndCreate (db : DB) (subId : Nat) (l : OrderLine) :
    Except Err DB :=
  match findProduct db l.productId with
  | none => .error .insufficientStock
  | some product =>
    if product.stock < (l.quantity : Int) then .error .insufficientStock
    else
      let d := decrementIfAvailable db l.productId l.quantity
      if d.2 = 0 then .error .insufficientStock
      else .ok (createOrderItemRow d.1 subId l)

/-- The item loop of one sub-order. -/
def processLines (subId : Nat) : DB → List OrderLine → Except Err DB
  | db, [] => .ok db
  | db, l :: ls => do
    let db1 ← deductAndCreate db subId l
    processLines subId db1 ls

/-- The seller loop of the checkout transaction: per seller, create the
sub-order (PENDING/PENDING, `is_parent: false`, parent reference) and run
its item loop. -/
def processGroups (parentId userId addressId : Nat) :
    DB → List (Nat × List OrderLine) → Except Err DB
  | db, [] => .ok db
  | db, (sid, lines) :: gs =>
    let subTotal : Int := (lines.map (fun l => l.price * (l.quantity : Int))).sum
    let subId := db.nextId
    let db1 : DB :=
      { db with
        nextId := db.nextId + 1,
        orders := db.orders ++
          [{ id := subId, userId := userId, parentOrderId := some parentId,
             sellerId := some sid, addressId := addressId,
             totalAmount := subTotal, status := .PENDING,
             paymentStatus := .PENDING, isParent := false }] }
    do
      let db2 ← processLines subId db1 lines
      processGroups parentId userId addressId db2 gs

/-- `tx.cartItem.deleteMany({ where: { cart_id } })` — clearing the cart
after every item succeeded. -/
def clearCart (db : DB) (cartId : Nat) : DB :=
  { db with
    cartItems := db.cartItems.filter (fun it => !(it.cartId == cartId)) }

/-- `OrderService.createOrder(userId, addressId)`: load the user's cart and
items (error on empty), validate address ownership, run the pre-check loop,
compute totals and seller groups, then in one transaction create the parent
order (PENDING/PENDING), the per-seller sub-orders and items with per-item
conditional stock deduction, and clear the cart.  On any failure the
transaction rolls back (the caller keeps the input state).  Returns the new
state and the parent order id. -/
def createOrder (db : DB) (now userId addressId : Nat) :
    Except Err (DB × Nat) :=
  match findUserCart db userId with
  | none => .error .emptyCart
  | some cart =>
    let items := db.cartItems.filter (fun it => it.cartId == cart.id)
    if items.isEmpty then .error .emptyCart
    else if (db.addresses.find? (fun a =>
        a.id == addressId && a.userId == userId)).isNone then
      .error .notFound
    else do
      precheckItems db now cart.id items
      let lines ← enrichItems db items
      let totalAmount : Int :=
        (lines.map (fun l => l.price * (l.quantity : Int))).sum
      let groups := groupBySeller lines
      let parentId := db.nextId
      let db1 : DB :=
        { db with
          nextId := db.nextId + 1,
          orders := db.orders ++
            [{ id := parentId, userId := userId, parentOrderId := none,
               sellerId := none, addressId := addressId,
               totalAmount := totalAmount, status := .PENDING,
               paymentStatus := .PENDING, isParent := true }] }
      let db2 ← processGroups parentId userId addressId db1 groups
      .ok (clearCart db2 cart.id, parentId)

/-! ## Order orchestrator: cancellation -/

/-- Status update of one order row to CANCELLED/REFUNDED. -/
def setOrderCancelled (db : DB) (oid : Nat) : DB :=
  { db with orders := db.orders.map (fun o =>
      if o.id == oid then
        { o with status := .CANCELLED, paymentStatus := .REFUNDED }
      else o) }

/-- `tx.orderItem.updateMany({ where: { order_id }, data:
{ status: CANCELLED } })`. -/
def setItemsCancelled (db : DB) (oid : Nat) : DB :=
  { db with orderItems := db.orderItems.map (fun i =>
      if i.orderId == oid then { i with status := .CANCELLED } else i) }

/-- The sub-orders of a parent:
`where: { parent_order_id: orderId }`. -/
def subOrdersOf (db : DB) (oid : Nat) : List Order :=
  db.orders.filter (fun o => o.parentOrderId == some oid)

/-- The items of one (sub-)order: `where: { order_id: oid }`. -/
def itemsOfOrder (db : DB) (oid : Nat) : List OrderItem :=
  db.orderItems.filter (fun i => i.orderId == oid)

/-- The restore loop: per item, under the product's lock, increment stock
by the item's quantity. -/
def restoreItems : DB → List OrderItem → Except Err DB
  | db, [] => .ok db
  | db, it :: rest => do
    let db1 ← incrementStock db it.productId it.quantity
    restoreItems db1 rest

/-- The cascade of `cancelOrder` over the sub-orders (item lists are the
snapshots of the initial fetch): per sub-order, set it CANCELLED/REFUNDED,
set its items CANCELLED, then restore stock for its items. -/
def cancelSubsLoop : DB → List (Nat × List OrderItem) → Except Err DB
  | db, [] => .ok db
  | db, (sid, snapshot) :: rest => do
    let db1 := setOrderCancelled db sid
    let db2 := setItemsCancelled db1 sid
    let db3 ← restoreItems db2 snapshot
    cancelSubsLoop db3 rest

/-- `OrderService.cancelOrder(userId, orderId)`: only PENDING orders; a
parent with sub-orders cascades over them; a legacy order restores its own
items (restore first, then item statuses); finally the order itself becomes
CANCELLED/REFUNDED.  All in one transaction. -/
def cancelOrder (db : DB) (userId orderId : Nat) : Except Err DB :=
  match db.orders.find? (fun o => o.id == orderId && o.userId == userId) with
  | none => .error .notFound
  | some order =>
    if order.status ≠ .PENDING then .error .cannotCancel
    else
      let subs := subOrdersOf db orderId
      do
        let db2 ←
          if order.isParent && !subs.isEmpty then
            cancelSubsLoop db (subs.map (fun s => (s.id, itemsOfOrder db s.id)))
          else do
            let db1 ← restoreItems db (itemsOfOrder db orderId)
            .ok (setItemsCancelled db1 orderId)
        .ok (setOrderCancelled db2 orderId)

/-- `OrderService.cancelSubOrder(sellerId, subOrderId)`: seller-scoped
fetch (`is_parent: false`), only PENDING or CONFIRMED; set the sub-order
CANCELLED/REFUNDED and its items CANCELLED, restore stock per item, then if
every sibling under the same parent is (or just became) CANCELLED, cascade
the parent to CANCELLED/REFUNDED. -/
def cancelSubOrder (db : DB) (sellerId subOrderId : Nat) : Except Err DB :=
  match db.orders.find? (fun o =>
      o.id == subOrderId && o.sellerId == some sellerId && o.isParent == false) with
  | none => .error .notFound
  | some subOrder =>
    if subOrder.status ≠ .PENDING ∧ subOrder.status ≠ .CONFIRMED then
      .error .cannotCancel
    else
      let snapshot := itemsOfOrder db subOrderId
      do
        let db1 := setOrderCancelled db subOrderId
        let db2 := setItemsCancelled db1 subOrderId
        let db3 ← restoreItems db2 snapshot
        match subOrder.parentOrderId with
        | none => .ok db3
        | some pid =>
          let allSubs := db3.orders.filter (fun o => o.parentOrderId == some pid)
          if allSubs.all (fun o => o.id == subOrderId || o.status == .CANCELLED) then
            .ok (setOrderCancelled db3 pid)
          else .ok db3

/-! ## Order orchestrator: seller status updates -/

/-- The `validTransitions` table of `updateOrderItemStatus`:
PENDING→{CONFIRMED, CANCELLED}; CONFIRMED→{SHIPPED}; SHIPPED→{DELIVERED};
statuses absent from the table (DELIVERED, CANCELLED) allow nothing. -/
def validTransitions (cur next : OrderStatus) : Bool :=
  match cur with
  | .PENDING => next == .CONFIRMED || next == .CANCELLED
  | .CONFIRMED => next == .SHIPPED
  | .SHIPPED => next == .DELIVERED
  | .DELIVERED => false
  | .CANCELLED => false

/-- `OrderService.updateOrderItemStatus(sellerId, orderItemId, status)`:
seller-scoped item fetch, transition validation before any write, then in
one transaction: set the item's status, mirror it onto the owning
sub-order, and onto the parent when the sub-order has one (unique updates
fault when the referenced order rows are gone). -/
def updateOrderItemStatus (db : DB) (sellerId itemId : Nat)
    (status : OrderStatus) : Except Err DB :=
  match db.orderItems.find? (fun i => i.id == itemId && i.sellerId == sellerId) with
  | none => .error .notFound
  | some orderItem =>
    if !(validTransitions orderItem.status status) then .error .invalidTransition
    else
      let db1 : DB :=
        { db with orderItems := db.orderItems.map (fun i =>
            if i.id == itemId then { i with status := status } else i) }
      match db1.orders.find? (fun o => o.id == orderItem.orderId) with
      | none => .error .notFound
      | some subOrder =>
        let db2 : DB :=
          { db1 with orders := db1.orders.map (fun o =>
              if o.id == orderItem.orderId then { o with status := status }
              else o) }
        match subOrder.parentOrderId with
        | none => .ok db2
        | some pid =>
          if (db2.orders.find? (fun o => o.id == pid)).isSome then
            .ok { db2 with orders := db2.orders.map (fun o =>
                if o.id == pid then { o with status := status } else o) }
          else .error .notFound

/-! ## Payment service (src/src/services/payment.service.ts) -/

/-- `prisma.order.update({ data: { payment_status } })` on one order. -/
def setPaymentStatusById (db : DB) (oid : Nat) (ps : PaymentStatus) : DB :=
  { db with orders := db.orders.map (fun o =>
      if o.id == oid then { o with paymentStatus := ps } else o) }

/-- `PaymentService.processPayment`: order fetch, already-paid short
circuit, PROCESSING marker, then the gateway outcome (`gatewaySuccess`
stands for `simulatePaymentGateway`, which is randomised): on success the
parent, its sub-orders and their items all become CONFIRMED/PAID in one
transaction; on failure only `payment_status` becomes FAILED.  Returns the
`success` flag of the response. -/
def processPayment (db : DB) (orderId : Nat) (gatewaySuccess : Bool) :
    Except Err (DB × Bool) :=
  match db.orders.find? (fun o => o.id == orderId) with
  | none => .error .notFound
  | some order =>
    if order.paymentStatus == .PAID then .ok (db, true)
    else
      let db1 := setPaymentStatusById db orderId .PROCESSING
      if gatewaySuccess then
        let subs := db1.orders.filter (fun o => o.parentOrderId == some orderId)
        let db2 : DB :=
          { db1 with orders := db1.orders.map (fun o =>
              if o.id == orderId then
                { o with paymentStatus := .PAID, status := .CONFIRMED }
              else o) }
        let isParentWithSubs :=
          (db1.orders.find? (fun o => o.id == orderId)).any (·.isParent)
            && !subs.isEmpty
        let db3 : DB :=
          if isParentWithSubs then
            let db2a : DB :=
              { db2 with orders := db2.orders.map (fun o =>
                  if o.parentOrderId == some orderId then
                    { o with paymentStatus := .PAID, status := .CONFIRMED }
                  else o) }
            { db2a with orderItems := db2a.orderItems.map (fun i =>
                if (subs.map (·.id)).contains i.orderId then
                  { i with status := .CONFIRMED }
                else i) }
          else
            { db2 with orderItems := db2.orderItems.map (fun i =>
                if i.orderId == orderId then { i with status := .CONFIRMED }
                else i) }
        .ok (db3, true)
      else
        .ok (setPaymentStatusById db1 orderId .FAILED, false)

/-! ## Operation sequences (for the global stock invariant) -/

/-- The core mutating operations quantified over by claim C1. -/
inductive Op where
  | createOrder (now userId addressId : Nat)
  | cancelOrder (userId orderId : Nat)
  | cancelSubOrder (sellerId subOrderId : Nat)
  | addToCart (now : Nat) (userId sessionId : Option Nat) (pid qty : Nat)
deriving DecidableEq, Repr

/-- Run one operation; a failed operation leaves the store unchanged
(transaction rollback / pre-transaction rejection). -/
def applyOp (db : DB) : Op → DB
  | .createOrder now u a =>
    match createOrder db now u a with
    | .ok r => r.1
    | .error _ => db
  | .cancelOrder u o =>
    match cancelOrder db u o with
    | .ok db1 => db1
    | .error _ => db
  | .cancelSubOrder s o =>
    match cancelSubOrder db s o with
    | .ok db1 => db1
    | .error _ => db
  | .addToCart now u s p q =>
    match addToCart db now u s p q with
    | .ok db1 => db1
    | .error _ => db

/-- Run a sequence of operations. -/
def applyOps (db : DB) : List Op → DB
  | [] => db
  | op :: ops => applyOps (applyOp db op) ops

/-- The authoritative-stock invariant of claim C1. -/
def StocksNonneg (db : DB) : Prop := ∀ p ∈ db.products, 0 ≤ p.stock

/-! ### Claim C1: the authoritative stock counter never becomes negative -/

theorem decrementIfAvailable_nonneg (db : DB) (pid qty : Nat)
    (h : StocksNonneg db) : StocksNonneg (decrementIfAvailable db pid qty).1 := by
  intro p hp
  simp only [decrementIfAvailable, List.mem_map] at hp
  obtain ⟨q, hq, rfl⟩ := hp
  by_cases hc : (q.id == pid && decide ((qty : Int) ≤ q.stock)) = true
  · simp only [hc, if_true]
    simp only [Bool.and_eq_true, decide_eq_true_eq] at hc
    have := h q hq
    omega
  · simp only [hc, if_false]
    exact h q hq

theorem incrementStock_nonneg (db db' : DB) (pid qty : Nat)
    (h : StocksNonneg db) (hok : incrementStock db pid qty = .ok db') :
    StocksNonneg db' := by
  unfold incrementStock at hok
  split at hok
  · cases hok
    intro p hp
    simp only [List.mem_map] at hp
    obtain ⟨q, hq, rfl⟩ := hp
    by_cases hc : (q.id == pid) = true
    · simp only [hc, if_true]
      have := h q hq
      omega
    · simp only [hc, if_false]
      exact h q hq
  · cases hok

theorem deductAndCreate_nonneg (db db' : DB) (subId : Nat) (l : OrderLine)
    (h : StocksNonneg db) (hok : deductAndCreate db subId l = .ok db') :
    StocksNonneg db' := by
  unfold deductAndCreate at hok
  split at hok
  · cases hok
  · split at hok
    · cases hok
    · simp only [] at hok
      split at hok
      · cases hok
      · cases hok
        exact decrementIfAvailable_nonneg db l.productId l.quantity h

theorem processLines_nonneg (subId : Nat) (lines : List OrderLine) :
    ∀ db db' : DB, StocksNonneg db →
      processLines subId db lines = .ok db' → StocksNonneg db' := by
  induction lines with
  | nil => intro db db' h hok; cases hok; exact h
  | cons l ls ih =>
    intro db db' h hok
    simp only [processLines] at hok
    cases hd : deductAndCreate db subId l with
    | error e => rw [hd] at hok; cases hok
    | ok db1 =>
      rw [hd] at hok
      exact ih db1 db' (deductAndCreate_nonneg db db1 subId l h hd) hok

theorem processGroups_nonneg (parentId userId addressId : Nat)
    (gs : List (Nat × List OrderLine)) :
    ∀ db db' : DB, StocksNonneg db →
      processGroups parentId userId addressId db gs = .ok db' →
      StocksNonneg db' := by
  induction gs with
  | nil => intro db db' h hok; cases hok; exact h
  | cons g rest ih =>
    intro db db' h hok
    obtain ⟨sid, lines⟩ := g
    simp only [processGroups] at hok
    set db1 : DB :=
      { db with
        nextId := db.nextId + 1,
        orders := db.orders ++
          [{ id := db.nextId, userId := userId, parentOrderId := some parentId,
             sellerId := some sid, addressId := addressId,
             totalAmount := (lines.map (fun l => l.price * (l.quantity : Int))).sum,
             status := .PENDING, paymentStatus := .PENDING,
             isParent := false }] } with hdb1
    have h1 : StocksNonneg db1 := by
      intro p hp; exact h p hp
    cases hl : processLines db.nextId db1 lines with
    | error e => rw [hl] at hok; cases hok
    | ok db2 =>
      rw [hl] at hok
      exact ih db2 db' (processLines_nonneg db.nextId lines db1 db2 h1 hl) hok

theorem createOrder_nonneg (db db' : DB) (now userId addressId oid : Nat)
    (h : StocksNonneg db)
    (hok : createOrder db now userId addressId = .ok (db', oid)) :
    StocksNonneg db' := by
  unfold createOrder at hok
  split at hok
  · cases hok
  · rename_i cart hcart
    simp only [bind, Except.bind] at hok
    split at hok
    · cases hok
    · split at hok
      · cases hok
      ·
        cases hpre : precheckItems db now cart.id
            (db.cartItems.filter (fun it => it.cartId == cart.id)) with
        | error e => rw [hpre] at hok; cases hok
        | ok u =>
          rw [hpre] at hok
          simp only [] at hok
          cases he : enrichItems db
              (db.cartItems.filter (fun it => it.cartId == cart.id)) with
          | error e => rw [he] at hok; cases hok
          | ok lines =>
            rw [he] at hok
            simp only [] at hok
            cases hg : processGroups db.nextId userId addressId
                { db with
                  nextId := db.nextId + 1,
                  orders := db.orders ++
                    [{ id := db.nextId, userId := userId, parentOrderId := none,
                       sellerId := none, addressId := addressId,
                       totalAmount :=
                         (lines.map (fun l => l.price * (l.quantity : Int))).sum,
                       status := .PENDING, paymentStatus := .PENDING,
                       isParent := true }] }
                (groupBySeller lines) with
            | error e => rw [hg] at hok; cases hok
            | ok db2 =>
              rw [hg] at hok
              cases hok
              have h1 : StocksNonneg
                  { db with
                    nextId := db.nextId + 1,
                    orders := db.orders ++
                      [{ id := db.nextId, userId := userId, parentOrderId := none,
                         sellerId := none, addressId := addressId,
                         totalAmount :=
                           (lines.map (fun l => l.price * (l.quantity : Int))).sum,
                         status := .PENDING, paymentStatus := .PENDING,
                         isParent := true }] } := by
                intro p hp; exact h p hp
              exact processGroups_nonneg db.nextId userId addressId
                (groupBySeller lines) _ db2 h1 hg

theorem restoreItems_nonneg (items : List OrderItem) :
    ∀ db db' : DB, StocksNonneg db →
      restoreItems db items = .ok db' → StocksNonneg db' := by
  induction items with
  | nil => intro db db' h hok; cases hok; exact h
  | cons it rest ih =>
    intro db db' h hok
    simp only [restoreItems] at hok
    cases hi : incrementStock db it.productId it.quantity with
    | error e => rw [hi] at hok; cases hok
    | ok db1 =>
      rw [hi] at hok
      exact ih db1 db' (incrementStock_nonneg db db1 it.productId it.quantity h hi) hok

theorem setOrderCancelled_nonneg (db : DB) (oid : Nat) (h : StocksNonneg db) :
    StocksNonneg (setOrderCancelled db oid) := fun p hp => h p hp

theorem setItemsCancelled_nonneg (db : DB) (oid : Nat) (h : StocksNonneg db) :
    StocksNonneg (setItemsCancelled db oid) := fun p hp => h p hp

theorem cancelSubsLoop_nonneg (pairs : List (Nat × List OrderItem)) :
    ∀ db db' : DB, StocksNonneg db →
      cancelSubsLoop db pairs = .ok db' → StocksNonneg db' := by
  induction pairs with
  | nil => intro db db' h hok; cases hok; exact h
  | cons pr rest ih =>
    intro db db' h hok
    obtain ⟨sid, snapshot⟩ := pr
    simp only [cancelSubsLoop] at hok
    cases hr : restoreItems (setItemsCancelled (setOrderCancelled db sid) sid)
        snapshot with
    | error e => rw [hr] at hok; cases hok
    | ok db3 =>
      rw [hr] at hok
      have h2 : StocksNonneg (setItemsCancelled (setOrderCancelled db sid) sid) :=
        setItemsCancelled_nonneg _ _ (setOrderCancelled_nonneg _ _ h)
      exact ih db3 db' (restoreItems_nonneg snapshot _ db3 h2 hr) hok

theorem cancelOrder_nonneg (db db' : DB) (userId orderId : Nat)
    (h : StocksNonneg db) (hok : cancelOrder db userId orderId = .ok db') :
    StocksNonneg db' := by
  unfold cancelOrder at hok
  split at hok
  · cases hok
  · rename_i order horder
    split at hok
    · cases hok
    · simp only [bind, Except.bind] at hok
      split at hok
      · cases hc : cancelSubsLoop db
            ((subOrdersOf db orderId).map (fun s => (s.id, itemsOfOrder db s.id))) with
        | error e => rw [hc] at hok; cases hok
        | ok db2 =>
          rw [hc] at hok
          cases hok
          exact setOrderCancelled_nonneg db2 orderId
            (cancelSubsLoop_nonneg _ db db2 h hc)
      · cases hr : restoreItems db (itemsOfOrder db orderId) with
        | error e => rw [hr] at hok; cases hok
        | ok db1 =>
          rw [hr] at hok
          cases hok
          exact setOrderCancelled_nonneg _ orderId
            (setItemsCancelled_nonneg db1 orderId
              (restoreItems_nonneg _ db db1 h hr))

theorem cancelSubOrder_nonneg (db db' : DB) (sellerId subOrderId : Nat)
    (h : StocksNonneg db) (hok : cancelSubOrder db sellerId subOrderId = .ok db') :
    StocksNonneg db' := by
  unfold cancelSubOrder at hok
  split at hok
  · cases hok
  · rename_i subOrder hsub
    split at hok
    · cases hok
    · simp only [bind, Except.bind] at hok
      cases hr : restoreItems
          (setItemsCancelled (setOrderCancelled db subOrderId) subOrderId)
          (itemsOfOrder db subOrderId) with
      | error e => rw [hr] at hok; cases hok
      | ok db3 =>
        rw [hr] at hok
        simp only [] at hok
        have h3 : StocksNonneg db3 :=
          restoreItems_nonneg _ _ db3
            (setItemsCancelled_nonneg _ _ (setOrderCancelled_nonneg _ _ h)) hr
        split at hok
        · cases hok; exact h3
        · split at hok
          · cases hok
            exact setOrderCancelled_nonneg _ _ h3
          · cases hok
            exact h3

theorem resolveCart_products (db : DB) (now : Nat) (u s : Option Nat) :
    (resolveCart db now u s).1.products = db.products := by
  unfold resolveCart
  simp only []
  split
  · rfl
  · rfl

theorem addToCart_products_eq (db db' : DB) (now : Nat)
    (userId sessionId : Option Nat) (pid qty : Nat)
    (hok : addToCart db now userId sessionId pid qty = .ok db') :
    db'.products = db.products := by
  unfold addToCart at hok
  split at hok
  · cases hok
  · split at hok
    · cases hok
    · split at hok
      · cases hok
      · split at hok
        · split at hok
          · cases hok
          · cases hok
            exact resolveCart_products db now userId sessionId
        · cases hok
          exact resolveCart_products db now userId sessionId

theorem addToCart_nonneg (db db' : DB) (now : Nat)
    (userId sessionId : Option Nat) (pid qty : Nat) (h : StocksNonneg db)
    (hok : addToCart db now userId sessionId pid qty = .ok db') :
    StocksNonneg db' := by
  intro p hp
  rw [addToCart_products_eq db db' now userId sessionId pid qty hok] at hp
  exact h p hp

theorem applyOp_nonneg (db : DB) (op : Op) (h : StocksNonneg db) :
    StocksNonneg (applyOp db op) := by
  cases op with
  | createOrder now u a =>
    simp only [applyOp]
    cases hc : createOrder db now u a with
    | error e => exact h
    | ok r => exact createOrder_nonneg db r.1 now u a r.2 h hc
  | cancelOrder u o =>
    simp only [applyOp]
    cases hc : cancelOrder db u o with
    | error e => exact h
    | ok db1 => exact cancelOrder_nonneg db db1 u o h hc
  | cancelSubOrder s o =>
    simp only [applyOp]
    cases hc : cancelSubOrder db s o with
    | error e => exact h
    | ok db1 => exact cancelSubOrder_nonneg db db1 s o h hc
  | addToCart now u s p q =>
    simp only [applyOp]
    cases hc : addToCart db now u s p q with
    | error e => exact h
    | ok db1 => exact addToCart_nonneg db db1 now u s p q h hc

/-- **C1.** For every product and every sequence of core operations
(createOrder, cancelOrder, cancelSubOrder, addToCart), the authoritative
stock counter never becomes negative: every stock decrement is conditional
on `stock ≥ qty`, increments only add, and failed operations roll back. -/
theorem stock_never_negative (db : DB) (ops : List Op)
    (h : StocksNonneg db) : StocksNonneg (applyOps db ops) := by
  induction ops generalizing db with
  | nil => exact h
  | cons op rest ih => exact ih (applyOp db op) (applyOp_nonneg db op h)

/-- Witness for C1: a store with one product of stock 2 and a user cart,
driven through an add-to-cart, a checkout and a cancellation. -/
theorem stock_never_negative_witness :
    StocksNonneg
      { nextId := 10,
        products := [{ id := 1, sellerId := 2, price := 7, stock := 2 }],
        addresses := [{ id := 3, userId := 4 }],
        carts := [{ id := 5, userId := some 4, sessionId := none,
                    expiresAt := none }],
        cartItems := [], orders := [], orderItems := [] }
    ∧ StocksNonneg (applyOps
      { nextId := 10,
        products := [{ id := 1, sellerId := 2, price := 7, stock := 2 }],
        addresses := [{ id := 3, userId := 4 }],
        carts := [{ id := 5, userId := some 4, sessionId := none,
                    expiresAt := none }],
        cartItems := [], orders := [], orderItems := [] }
      [.addToCart 0 (some 4) none 1 2, .createOrder 1 4 3,
       .cancelOrder 4 10]) := by
  constructor
  · unfold StocksNonneg; decide
  · exact stock_never_negative _ _ (by unfold StocksNonneg; decide)

/-! ### Helper: `find?` through a key-preserving row update -/

theorem find?_map_pres {α : Type} (l : List α) (f : α → α) (p : α → Bool)
    (hp : ∀ a, p (f a) = p a) :
    (l.map f).find? p = (l.find? p).map f := by
  rw [List.find?_map]
  have hpf : (p ∘ f) = p := funext hp
  rw [hpf]

/-! ### Claim C7: the order-item status state machine -/

/-- Run `updateOrderItemStatus` as an endpoint call: a thrown error leaves
the store unchanged. -/
def runUpdateOrderItemStatus (db : DB) (sellerId itemId : Nat)
    (status : OrderStatus) : DB :=
  match updateOrderItemStatus db sellerId itemId status with
  | .ok db' => db'
  | .error _ => db

/-- **C7.** `updateOrderItemStatus` accepts exactly
PENDING→CONFIRMED, PENDING→CANCELLED, CONFIRMED→SHIPPED, SHIPPED→DELIVERED;
every other (current, requested) pair is rejected with InvalidTransition
before any write, leaving the store — item, sub-order and parent statuses
included — unchanged; a legal request on an item whose sub-order exists
succeeds. -/
theorem updateOrderItemStatus_state_machine (db : DB) (sellerId itemId : Nat)
    (cur next : OrderStatus) (item : OrderItem)
    (hfind : db.orderItems.find?
      (fun i => i.id == itemId && i.sellerId == sellerId) = some item)
    (hcur : item.status = cur) :
    (validTransitions cur next = true ↔
      ((cur = .PENDING ∧ (next = .CONFIRMED ∨ next = .CANCELLED)) ∨
       (cur = .CONFIRMED ∧ next = .SHIPPED) ∨
       (cur = .SHIPPED ∧ next = .DELIVERED)))
    ∧ (validTransitions cur next = false →
        updateOrderItemStatus db sellerId itemId next =
          .error .invalidTransition
        ∧ runUpdateOrderItemStatus db sellerId itemId next = db)
    ∧ (validTransitions cur next = true →
        ∀ subOrder : Order,
          db.orders.find? (fun o => o.id == item.orderId) = some subOrder →
          subOrder.parentOrderId = none →
          ∃ db', updateOrderItemStatus db sellerId itemId next = .ok db') := by
  refine ⟨?_, ?_, ?_⟩
  · subst hcur
    cases item.status <;> cases next <;> simp [validTransitions]
  · intro hinv
    have herr : updateOrderItemStatus db sellerId itemId next =
        .error .invalidTransition := by
      unfold updateOrderItemStatus
      rw [hfind]
      simp only [hcur, hinv, Bool.not_false, if_true]
    exact ⟨herr, by unfold runUpdateOrderItemStatus; rw [herr]⟩
  · intro hval subOrder hsub hnone
    have hstep : updateOrderItemStatus db sellerId itemId next =
        .ok { db with
              orderItems := db.orderItems.map (fun i =>
                if i.id == itemId then { i with status := next } else i),
              orders := db.orders.map (fun o =>
                if o.id == item.orderId then { o with status := next }
                else o) } := by
      unfold updateOrderItemStatus
      rw [hfind]
      simp only [hcur, hval, Bool.not_true, Bool.false_eq_true, if_false]
      rw [hsub]
      simp only [hnone]
    exact ⟨_, hstep⟩

/-- Witness for C7: Scenario E, an item in SHIPPED being set back to
PENDING, is rejected with the store unchanged. -/
theorem updateOrderItemStatus_state_machine_witness :
    validTransitions OrderStatus.SHIPPED OrderStatus.PENDING = false
    ∧ updateOrderItemStatus
        { nextId := 9, products := [], addresses := [], carts := [],
          cartItems := [], orders := [],
          orderItems := [{ id := 7, orderId := 8, productId := 1,
                           sellerId := 2, quantity := 1, price := 5,
                           status := .SHIPPED }] }
        2 7 OrderStatus.PENDING = .error .invalidTransition := by
  have h := updateOrderItemStatus_state_machine
    { nextId := 9, products := [], addresses := [], carts := [],
      cartItems := [], orders := [],
      orderItems := [{ id := 7, orderId := 8, productId := 1,
                       sellerId := 2, quantity := 1, price := 5,
                       status := .SHIPPED }] }
    2 7 OrderStatus.SHIPPED OrderStatus.PENDING
    { id := 7, orderId := 8, productId := 1, sellerId := 2, quantity := 1,
      price := 5, status := .SHIPPED }
    (by decide) rfl
  exact ⟨by decide, (h.2.1 (by decide)).1⟩

/-! ### Claim C8: payment failure leaves status PENDING and stock untouched -/

/-- **C8.** When the gateway outcome is failure (and the order is not
already PAID), `processPayment` returns `success: false`, sets only the
order's `payment_status` to FAILED — its `status` field keeps its previous
value, so a PENDING order stays PENDING — and no product stock, cart item
or order item changes; stock release happens only via explicit
cancellation. -/
theorem processPayment_failure_frame (db : DB) (orderId : Nat) (order : Order)
    (hfind : db.orders.find? (fun o => o.id == orderId) = some order)
    (hnp : order.paymentStatus ≠ .PAID) :
    ∃ db', processPayment db orderId false = .ok (db', false)
      ∧ db'.products = db.products
      ∧ db'.cartItems = db.cartItems
      ∧ db'.orderItems = db.orderItems
      ∧ db'.orders.find? (fun o => o.id == orderId)
          = some { order with paymentStatus := .FAILED } := by
  have hne : (order.paymentStatus == PaymentStatus.PAID) = false :=
    beq_eq_false_iff_ne.mpr hnp
  refine ⟨setPaymentStatusById (setPaymentStatusById db orderId .PROCESSING)
    orderId .FAILED, ?_, rfl, rfl, rfl, ?_⟩
  · unfold processPayment
    rw [hfind]
    simp only [hne, Bool.false_eq_true, if_false]
  · show (setPaymentStatusById (setPaymentStatusById db orderId .PROCESSING)
        orderId .FAILED).orders.find? (fun o => o.id == orderId)
      = some { order with paymentStatus := .FAILED }
    unfold setPaymentStatusById
    simp only []
    rw [find?_map_pres _ _ _ (fun o => by by_cases h : (o.id == orderId) = true <;> simp [h])]
    rw [find?_map_pres _ _ _ (fun o => by by_cases h : (o.id == orderId) = true <;> simp [h])]
    rw [hfind]
    have hid : (order.id == orderId) = true := by
      have := List.find?_some hfind
      exact this
    have hideq : order.id = orderId := by simpa using hid
    simp [hideq]

/-- Witness for C8 at a concrete PENDING order. -/
theorem processPayment_failure_frame_witness :
    ∃ db', processPayment
        { nextId := 2,
          products := [{ id := 9, sellerId := 3, price := 4, stock := 6 }],
          addresses := [], carts := [], cartItems := [],
          orders := [{ id := 1, userId := 5, parentOrderId := none,
                       sellerId := none, addressId := 0, totalAmount := 4,
                       status := .PENDING, paymentStatus := .PENDING,
                       isParent := true }],
          orderItems := [] } 1 false = .ok (db', false)
      ∧ db'.products =
          [{ id := 9, sellerId := 3, price := 4, stock := 6 }] := by
  obtain ⟨db', h1, h2, -, -, -⟩ := processPayment_failure_frame
    { nextId := 2,
      products := [{ id := 9, sellerId := 3, price := 4, stock := 6 }],
      addresses := [], carts := [], cartItems := [],
      orders := [{ id := 1, userId := 5, parentOrderId := none,
                   sellerId := none, addressId := 0, totalAmount := 4,
                   status := .PENDING, paymentStatus := .PENDING,
                   isParent := true }],
      orderItems := [] } 1
    { id := 1, userId := 5, parentOrderId := none, sellerId := none,
      addressId := 0, totalAmount := 4, status := .PENDING,
      paymentStatus := .PENDING, isParent := true }
    (by decide) (by decide)
  exact ⟨db', h1, h2⟩

/-! ### Claim C9: seller-side item cancellation restores no stock -/

/-- **C9.** For an order item in PENDING, `updateOrderItemStatus(sellerId,
itemId, CANCELLED)` is a legal transition and succeeds, marking the item,
its sub-order and (when present) the parent order CANCELLED — but it never
touches `products`: stock restoration lives only in `cancelOrder` /
`cancelSubOrder`, so units cancelled this way stay deducted. -/
theorem updateOrderItemStatus_cancel_no_restock
    (db : DB) (sellerId itemId : Nat) (item : OrderItem) (subOrder : Order)
    (hfind : db.orderItems.find?
      (fun i => i.id == itemId && i.sellerId == sellerId) = some item)
    (hpend : item.status = .PENDING)
    (hsub : db.orders.find? (fun o => o.id == item.orderId) = some subOrder)
    (hparent : ∀ pid, subOrder.parentOrderId = some pid →
      (db.orders.find? (fun o => o.id == pid)).isSome) :
    ∃ db', updateOrderItemStatus db sellerId itemId .CANCELLED = .ok db'
      ∧ db'.products = db.products
      ∧ db'.cartItems = db.cartItems
      ∧ db'.orderItems.find?
          (fun i => i.id == itemId && i.sellerId == sellerId)
          = some { item with status := .CANCELLED }
      ∧ db'.orders.find? (fun o => o.id == item.orderId)
          = some { subOrder with status := .CANCELLED }
      ∧ (∀ pid parent, subOrder.parentOrderId = some pid →
          db.orders.find? (fun o => o.id == pid) = some parent →
          db'.orders.find? (fun o => o.id == pid)
            = some { parent with status := OrderStatus.CANCELLED }) := by
  have hval : validTransitions item.status .CANCELLED = true := by
    rw [hpend]; rfl
  -- the item map and its effect on the seller-scoped find
  have hitem : (db.orderItems.map (fun i =>
      if i.id == itemId then { i with status := OrderStatus.CANCELLED }
      else i)).find? (fun i => i.id == itemId && i.sellerId == sellerId)
      = some { item with status := OrderStatus.CANCELLED } := by
    rw [find?_map_pres _ _ _ (fun i => by
      by_cases h : (i.id == itemId) = true <;> simp [h])]
    rw [hfind]
    have hid := List.find?_some hfind
    simp only [Bool.and_eq_true, beq_iff_eq] at hid
    simp [hid.1]
  -- the sub-order map and its effect on the order find
  have hsubmap : (db.orders.map (fun o =>
      if o.id == item.orderId then { o with status := OrderStatus.CANCELLED }
      else o)).find? (fun o => o.id == item.orderId)
      = some { subOrder with status := OrderStatus.CANCELLED } := by
    rw [find?_map_pres _ _ _ (fun o => by
      by_cases h : (o.id == item.orderId) = true <;> simp [h])]
    rw [hsub]
    have hid := List.find?_some hsub
    simp only [beq_iff_eq] at hid
    simp [hid]
  cases hp : subOrder.parentOrderId with
  | none =>
    rw [hp] at hsubmap
    refine ⟨{ db with
        orderItems := db.orderItems.map (fun i =>
          if i.id == itemId then { i with status := OrderStatus.CANCELLED }
          else i),
        orders := db.orders.map (fun o =>
          if o.id == item.orderId then { o with status := OrderStatus.CANCELLED }
          else o) }, ?_, rfl, rfl, hitem, hsubmap, ?_⟩
    · unfold updateOrderItemStatus
      rw [hfind]
      simp only [hval, Bool.not_true, Bool.false_eq_true, if_false]
      rw [hsub]
      simp only [hp]
    · intro pid parent hpid
      exact Option.noConfusion hpid
  | some pid =>
    rw [hp] at hsubmap
    have hps : (db.orders.find? (fun o => o.id == pid)).isSome :=
      hparent pid hp
    have hps2 : ((db.orders.map (fun o =>
        if o.id == item.orderId then { o with status := OrderStatus.CANCELLED }
        else o)).find? (fun o => o.id == pid)).isSome := by
      rw [find?_map_pres _ _ _ (fun o => by
        by_cases h : (o.id == item.orderId) = true <;> simp [h])]
      cases hfp : db.orders.find? (fun o => o.id == pid) with
      | none => rw [hfp] at hps; cases hps
      | some parent => simp
    refine ⟨{ db with
        orderItems := db.orderItems.map (fun i =>
          if i.id == itemId then { i with status := OrderStatus.CANCELLED }
          else i),
        orders := (db.orders.map (fun o =>
          if o.id == item.orderId then { o with status := OrderStatus.CANCELLED }
          else o)).map (fun o =>
          if o.id == pid then { o with status := OrderStatus.CANCELLED }
          else o) }, ?_, rfl, rfl, hitem, ?_, ?_⟩
    · unfold updateOrderItemStatus
      rw [hfind]
      simp only [hval, Bool.not_true, Bool.false_eq_true, if_false]
      rw [hsub]
      simp only [hp, hps2, if_true]
    · rw [find?_map_pres _ _ _ (fun o => by
        by_cases h : (o.id == pid) = true <;> simp [h])]
      rw [hsubmap]
      have hid := List.find?_some hsub
      simp only [beq_iff_eq] at hid
      by_cases h2 : (subOrder.id == pid) = true <;> simp [h2]
    · intro pid2 parent hpid2 hfp
      cases hpid2
      rw [find?_map_pres _ _ _ (fun o => by
        by_cases h : (o.id == pid) = true <;> simp [h])]
      rw [find?_map_pres _ _ _ (fun o => by
        by_cases h : (o.id == item.orderId) = true <;> simp [h])]
      rw [hfp]
      have hid := List.find?_some hfp
      simp only [beq_iff_eq] at hid
      by_cases h3 : parent.id = item.orderId
      · have h4 : pid = item.orderId := hid.symm.trans h3
        simp [hid, h4]
      · have h4 : ¬(pid = item.orderId) := fun hh => h3 (hid.trans hh)
        simp [hid, h3, h4]

/-- Witness for C9: a PENDING item of a sub-order with a parent; after the
seller cancels the item, the product's stock is untouched. -/
theorem updateOrderItemStatus_cancel_no_restock_witness :
    ∃ db', updateOrderItemStatus
        { nextId := 20,
          products := [{ id := 1, sellerId := 2, price := 5, stock := 0 }],
          addresses := [], carts := [], cartItems := [],
          orders := [{ id := 10, userId := 4, parentOrderId := none,
                       sellerId := none, addressId := 0, totalAmount := 5,
                       status := .PENDING, paymentStatus := .PENDING,
                       isParent := true },
                     { id := 11, userId := 4, parentOrderId := some 10,
                       sellerId := some 2, addressId := 0, totalAmount := 5,
                       status := .PENDING, paymentStatus := .PENDING,
                       isParent := false }],
          orderItems := [{ id := 12, orderId := 11, productId := 1,
                           sellerId := 2, quantity := 1, price := 5,
                           status := .PENDING }] }
        2 12 .CANCELLED = .ok db'
      ∧ db'.products = [{ id := 1, sellerId := 2, price := 5, stock := 0 }] := by
  obtain ⟨db', h1, h2, -, -, -, -⟩ := updateOrderItemStatus_cancel_no_restock
    { nextId := 20,
      products := [{ id := 1, sellerId := 2, price := 5, stock := 0 }],
      addresses := [], carts := [], cartItems := [],
      orders := [{ id := 10, userId := 4, parentOrderId := none,
                   sellerId := none, addressId := 0, totalAmount := 5,
                   status := .PENDING, paymentStatus := .PENDING,
                   isParent := true },
                 { id := 11, userId := 4, parentOrderId := some 10,
                   sellerId := some 2, addressId := 0, totalAmount := 5,
                   status := .PENDING, paymentStatus := .PENDING,
                   isParent := false }],
      orderItems := [{ id := 12, orderId := 11, productId := 1,
                       sellerId := 2, quantity := 1, price := 5,
                       status := .PENDING }] }
    2 12
    { id := 12, orderId := 11, productId := 1, sellerId := 2, quantity := 1,
      price := 5, status := .PENDING }
    { id := 11, userId := 4, parentOrderId := some 10, sellerId := some 2,
      addressId := 0, totalAmount := 5, status := .PENDING,
      paymentStatus := .PENDING, isParent := false }
    (by decide) rfl (by decide) (by intro pid hpid; cases hpid; decide)
  exact ⟨db', h1, h2⟩

/-! ### Helpers for the cart theorems -/

/-- A sum of quantities over a stricter filter never exceeds the sum over a
weaker one. -/
theorem sum_filter_imp_le (l : List CartItem) (p q : CartItem → Bool)
    (hs : ∀ a, q a = true → p a = true) :
    ((l.filter q).map (·.quantity)).sum ≤ ((l.filter p).map (·.quantity)).sum := by
  induction l with
  | nil => simp
  | cons a l ih =>
    simp only [List.filter_cons]
    by_cases hq : q a = true
    · rw [if_pos hq, if_pos (hs a hq)]
      simp only [List.map_cons, List.sum_cons]
      omega
    · rw [if_neg hq]
      by_cases hp : p a = true
      · rw [if_pos hp]
        simp only [List.map_cons, List.sum_cons]
        omega
      · rw [if_neg hp]
        exact ih

/-- Excluding one row can only lower the reserved sum. -/
theorem reservedExcludingItem_le_reservedAll (db : DB) (pid iid now : Nat) :
    reservedExcludingItem db pid iid now ≤ reservedAll db pid now := by
  unfold reservedExcludingItem reservedAll
  refine sum_filter_imp_le _ _ _ (fun a ha => ?_)
  simp only [Bool.and_eq_true] at ha ⊢
  exact ⟨ha.1.1, ha.2⟩

/-- The first match of `find?` survives filtering, provided it satisfies the
filter. -/
theorem find?_filter_of_find? {α : Type} (l : List α) (p q : α → Bool)
    (a : α) (h : l.find? p = some a) (hq : q a = true) :
    (l.filter q).find? p = some a := by
  induction l with
  | nil => cases h
  | cons b l ih =>
    by_cases hpb : p b = true
    · rw [List.find?_cons_of_pos _ hpb] at h
      cases h
      rw [List.filter_cons, if_pos hq, List.find?_cons_of_pos _ hpb]
    · rw [List.find?_cons_of_neg _ hpb] at h
      rw [List.filter_cons]
      by_cases hqb : q b = true
      · rw [if_pos hqb, List.find?_cons_of_neg _ hpb]
        exact ih h
      · rw [if_neg hqb]
        exact ih h

/-- When the user already has a cart, `resolveCart` returns it with the
store untouched. -/
theorem resolveCart_found (db : DB) (now u : Nat) (c : Cart)
    (hf : findUserCart db u = some c) :
    resolveCart db now (some u) none = (db, c) := by
  unfold resolveCart
  simp only [hf]

/-- When the user has no cart, `resolveCart` appends a fresh one owned by
the user. -/
theorem resolveCart_new (db : DB) (now u : Nat)
    (hf : findUserCart db u = none) :
    resolveCart db now (some u) none =
      ({ db with
         nextId := db.nextId + 1,
         carts := db.carts ++
           [{ id := db.nextId, userId := some u, sessionId := none,
              expiresAt := none }] },
       { id := db.nextId, userId := some u, sessionId := none,
         expiresAt := none }) := by
  unfold resolveCart
  simp only [hf]

theorem resolveCart_found_fst (db : DB) (now u : Nat) (c : Cart)
    (hf : findUserCart db u = some c) :
    (resolveCart db now (some u) none).1 = db := by
  rw [resolveCart_found db now u c hf]

theorem resolveCart_found_snd (db : DB) (now u : Nat) (c : Cart)
    (hf : findUserCart db u = some c) :
    (resolveCart db now (some u) none).2 = c := by
  rw [resolveCart_found db now u c hf]

theorem resolveCart_new_fst (db : DB) (now u : Nat)
    (hf : findUserCart db u = none) :
    (resolveCart db now (some u) none).1 =
      { db with
        nextId := db.nextId + 1,
        carts := db.carts ++
          [{ id := db.nextId, userId := some u, sessionId := none,
             expiresAt := none }] } := by
  rw [resolveCart_new db now u hf]

theorem resolveCart_new_snd (db : DB) (now u : Nat)
    (hf : findUserCart db u = none) :
    (resolveCart db now (some u) none).2 =
      { id := db.nextId, userId := some u, sessionId := none,
        expiresAt := none } := by
  rw [resolveCart_new db now u hf]

/-- Success shape of an authenticated `addToCart`: afterwards the user's
cart resolves and its row for the product carries exactly the requested
quantity and the refreshed reservation expiry — whether the row was
created or replaced (never summed). -/
theorem addToCart_ok_item (db db' : DB) (now u pid qty : Nat)
    (hok : addToCart db now (some u) none pid qty = .ok db') :
    ∃ cart, findUserCart db' u = some cart ∧
      ∃ item, findCartItem db' cart.id pid = some item
        ∧ item.quantity = qty
        ∧ item.reservationExpiresAt = some (now + RESERVATION_TTL) := by
  unfold addToCart at hok
  rw [if_neg (by simp)] at hok
  split at hok
  · cases hok
  · rename_i product hp
    split at hok
    · cases hok
    · split at hok
      · rename_i e hfi
        split at hok
        · cases hok
        · cases hok
          cases hf : findUserCart db u with
          | some c =>
            rw [resolveCart_found_fst db now u c hf,
                resolveCart_found_snd db now u c hf] at hfi
            rw [resolveCart_found_fst db now u c hf]
            refine ⟨c, hf, ?_⟩
            refine ⟨{ e with
                      quantity := qty,
                      reservationExpiresAt :=
                        some (now + RESERVATION_TTL) }, ?_, rfl, rfl⟩
            have hfi2 : db.cartItems.find?
                (fun it => it.cartId == c.id && it.productId == pid)
                = some e := hfi
            show (db.cartItems.map _).find?
              (fun it : CartItem => it.cartId == c.id && it.productId == pid)
              = _
            rw [find?_map_pres _ _ _ (fun it => by
              by_cases h : (it.id == e.id) = true <;> simp [h])]
            rw [hfi2]
            simp
          | none =>
            rw [resolveCart_new_fst db now u hf] at hfi
            rw [resolveCart_new_fst db now u hf]
            have hfi' : db.cartItems.find?
                (fun it =>
                  it.cartId == (resolveCart db now (some u) none).2.id &&
                  it.productId == pid) = some e := hfi
            rw [resolveCart_new_snd db now u hf] at hfi'
            refine ⟨{ id := db.nextId, userId := some u, sessionId := none,
                      expiresAt := none }, ?_, ?_⟩
            · have hf2 : db.carts.find? (fun x => x.userId == some u)
                  = none := hf
              show (db.carts ++ _).find? (fun x => x.userId == some u) = _
              rw [List.find?_append, hf2]
              simp
            refine ⟨{ e with
                      quantity := qty,
                      reservationExpiresAt :=
                        some (now + RESERVATION_TTL) }, ?_, rfl, rfl⟩
            show (db.cartItems.map _).find?
              (fun it : CartItem =>
                it.cartId == db.nextId && it.productId == pid) = _
            rw [find?_map_pres _ _ _ (fun it => by
              by_cases h : (it.id == e.id) = true <;> simp [h])]
            rw [hfi']
            simp
      · rename_i hfi
        cases hok
        cases hf : findUserCart db u with
        | some c =>
          rw [resolveCart_found_fst db now u c hf,
              resolveCart_found_snd db now u c hf] at hfi
          rw [resolveCart_found_fst db now u c hf,
              resolveCart_found_snd db now u c hf]
          refine ⟨c, hf, ?_⟩
          refine ⟨{ id := db.nextId, cartId := c.id, productId := pid,
                    quantity := qty,
                    reservationExpiresAt :=
                      some (now + RESERVATION_TTL) }, ?_, rfl, rfl⟩
          have hfi2 : db.cartItems.find?
              (fun it => it.cartId == c.id && it.productId == pid)
              = none := hfi
          show (db.cartItems ++ _).find?
            (fun it => it.cartId == c.id && it.productId == pid) = _
          rw [List.find?_append, hfi2]
          simp
        | none =>
          rw [resolveCart_new_fst db now u hf] at hfi
          rw [resolveCart_new_fst db now u hf,
              resolveCart_new_snd db now u hf]
          have hfi' : db.cartItems.find?
              (fun it =>
                it.cartId == (resolveCart db now (some u) none).2.id &&
                it.productId == pid) = none := hfi
          rw [resolveCart_new_snd db now u hf] at hfi'
          refine ⟨{ id := db.nextId, userId := some u, sessionId := none,
                    expiresAt := none }, ?_, ?_⟩
          · have hf2 : db.carts.find? (fun x => x.userId == some u)
                = none := hf
            show (db.carts ++ _).find? (fun x => x.userId == some u) = _
            rw [List.find?_append, hf2]
            simp
          refine ⟨{ id := db.nextId + 1, cartId := db.nextId,
                    productId := pid, quantity := qty,
                    reservationExpiresAt :=
                      some (now + RESERVATION_TTL) }, ?_, rfl, rfl⟩
          show (db.cartItems ++ _).find?
            (fun it => it.cartId == db.nextId && it.productId == pid) = _
          rw [List.find?_append, hfi']
          simp

/-! ### Claim C4: availability on a repeat add (corrected)

The claim says a repeat add checks availability only with the cart's own
existing row excluded.  In the code the repeat add must first pass the
initial availability check over **all** active reservations — own row
included — so a cart already reserving q units of a stock-q product cannot
re-add q. -/

/-- Counterexample to C4 as stated: stock 5, the cart's own active row
reserves 5.  Availability excluding the own row is 5 ≥ 5, yet the re-add
of quantity 5 fails with InsufficientStock (first check counts the own
row). -/
theorem addToCart_readd_at_capacity_fails :
    addToCart
      { nextId := 30,
        products := [{ id := 1, sellerId := 2, price := 7, stock := 5 }],
        addresses := [],
        carts := [{ id := 10, userId := some 4, sessionId := none,
                    expiresAt := none }],
        cartItems := [{ id := 20, cartId := 10, productId := 1, quantity := 5,
                        reservationExpiresAt := some 100 }],
        orders := [], orderItems := [] }
      0 (some 4) none 1 5 = .error .insufficientStock
    ∧ (5 : Int) - (reservedExcludingItem
        { nextId := 30,
          products := [{ id := 1, sellerId := 2, price := 7, stock := 5 }],
          addresses := [],
          carts := [{ id := 10, userId := some 4, sessionId := none,
                      expiresAt := none }],
          cartItems := [{ id := 20, cartId := 10, productId := 1, quantity := 5,
                          reservationExpiresAt := some 100 }],
          orders := [], orderItems := [] } 1 20 0 : Int) = 5 := by
  exact ⟨by decide, by decide⟩

/-- **C4 (amended).** On a cart that already holds a row for the product,
`addToCart` fails with InsufficientStock iff the stock minus **all** active
reservations — the cart's own row included — is less than the requested
quantity (the binding first check; the second, own-row-excluding check can
never fail once the first passed); otherwise it replaces the row's quantity
and refreshes the reservation expiry. -/
theorem addToCart_existing_row_availability (db : DB) (now u pid qty : Nat)
    (product : Product) (cart : Cart) (item : CartItem)
    (hprod : findProduct db pid = some product)
    (hcart : findUserCart db u = some cart)
    (hitem : findCartItem db cart.id pid = some item) :
    (addToCart db now (some u) none pid qty = .error .insufficientStock
      ↔ product.stock - (reservedAll db pid now : Int) < (qty : Int))
    ∧ ((qty : Int) ≤ product.stock - (reservedAll db pid now : Int) →
        addToCart db now (some u) none pid qty =
          .ok { db with cartItems := db.cartItems.map (fun it =>
            if it.id == item.id then
              { it with
                quantity := qty,
                reservationExpiresAt := some (now + RESERVATION_TTL) }
            else it) }) := by
  have hkey : reservedExcludingItem db pid item.id now ≤
      reservedAll db pid now :=
    reservedExcludingItem_le_reservedAll db pid item.id now
  by_cases hc : product.stock - (reservedAll db pid now : Int) < (qty : Int)
  · have hadd : addToCart db now (some u) none pid qty =
        .error .insufficientStock := by
      unfold addToCart
      rw [if_neg (by simp)]
      simp only [hprod]
      rw [if_pos hc]
    refine ⟨⟨fun _ => hc, fun _ => hadd⟩, fun hq => absurd hq (by omega)⟩
  · have hadd : addToCart db now (some u) none pid qty =
        .ok { db with cartItems := db.cartItems.map (fun it =>
          if it.id == item.id then
            { it with
              quantity := qty,
              reservationExpiresAt := some (now + RESERVATION_TTL) }
          else it) } := by
      unfold addToCart
      rw [if_neg (by simp)]
      simp only [hprod]
      rw [if_neg hc]
      rw [resolveCart_found_fst db now u cart hcart,
          resolveCart_found_snd db now u cart hcart]
      simp only [hitem]
      rw [if_neg (by omega)]
    refine ⟨⟨fun herr => ?_, fun hlt => absurd hlt hc⟩, fun _ => hadd⟩
    rw [hadd] at herr
    cases herr

/-- Witness for the amended C4: with stock 10 and an own active row of 3,
a re-add of 5 passes both checks (10 − (3) ≥ 5) and replaces the quantity. -/
theorem addToCart_existing_row_availability_witness :
    ¬ (addToCart
      { nextId := 30,
        products := [{ id := 1, sellerId := 2, price := 7, stock := 10 }],
        addresses := [],
        carts := [{ id := 10, userId := some 4, sessionId := none,
                    expiresAt := none }],
        cartItems := [{ id := 20, cartId := 10, productId := 1, quantity := 3,
                        reservationExpiresAt := some 100 }],
        orders := [], orderItems := [] }
      0 (some 4) none 1 5 = .error .insufficientStock) := by
  intro hc
  have h := (addToCart_existing_row_availability
    { nextId := 30,
      products := [{ id := 1, sellerId := 2, price := 7, stock := 10 }],
      addresses := [],
      carts := [{ id := 10, userId := some 4, sessionId := none,
                  expiresAt := none }],
      cartItems := [{ id := 20, cartId := 10, productId := 1, quantity := 3,
                      reservationExpiresAt := some 100 }],
      orders := [], orderItems := [] }
    0 4 1 5
    { id := 1, sellerId := 2, price := 7, stock := 10 }
    { id := 10, userId := some 4, sessionId := none, expiresAt := none }
    { id := 20, cartId := 10, productId := 1, quantity := 3,
      reservationExpiresAt := some 100 }
    (by decide) (by decide) (by decide)).1.mp hc
  revert h
  decide

/-! ### Claim C6: repeat add replaces the quantity -/

/-- **C6.** Adding the same (cart, product, q) twice in a row, both calls
succeeding, leaves the stored cart-item quantity at q — the repeat add
replaces the quantity rather than summing it — and the reservation expiry
is refreshed to the second call's `now + 15min`. -/
theorem addToCart_repeat_replaces (db db1 db2 : DB) (now1 now2 u pid qty : Nat)
    (h1 : addToCart db now1 (some u) none pid qty = .ok db1)
    (h2 : addToCart db1 now2 (some u) none pid qty = .ok db2) :
    ∃ cart item, findUserCart db2 u = some cart
      ∧ findCartItem db2 cart.id pid = some item
      ∧ item.quantity = qty
      ∧ item.reservationExpiresAt = some (now2 + RESERVATION_TTL) := by
  obtain ⟨cart, hcart, item, hitem, hq, he⟩ :=
    addToCart_ok_item db1 db2 now2 u pid qty h2
  exact ⟨cart, item, hcart, hitem, hq, he⟩

/-- Witness for C6: quantity 5 added twice (stock 20); the final row holds
5, not 10. -/
theorem addToCart_repeat_replaces_witness :
    ∃ cart item, findUserCart
        { nextId := 31,
          products := [{ id := 1, sellerId := 2, price := 7, stock := 20 }],
          addresses := [],
          carts := [{ id := 10, userId := some 4, sessionId := none,
                      expiresAt := none }],
          cartItems := [{ id := 30, cartId := 10, productId := 1,
                          quantity := 5,
                          reservationExpiresAt := some 900001 }],
          orders := [], orderItems := [] } 4 = some cart
      ∧ findCartItem
          { nextId := 31,
            products := [{ id := 1, sellerId := 2, price := 7, stock := 20 }],
            addresses := [],
            carts := [{ id := 10, userId := some 4, sessionId := none,
                        expiresAt := none }],
            cartItems := [{ id := 30, cartId := 10, productId := 1,
                            quantity := 5,
                            reservationExpiresAt := some 900001 }],
            orders := [], orderItems := [] } cart.id 1 = some item
      ∧ item.quantity = 5
      ∧ item.reservationExpiresAt = some (1 + RESERVATION_TTL) :=
  addToCart_repeat_replaces
    { nextId := 30,
      products := [{ id := 1, sellerId := 2, price := 7, stock := 20 }],
      addresses := [],
      carts := [{ id := 10, userId := some 4, sessionId := none,
                  expiresAt := none }],
      cartItems := [], orders := [], orderItems := [] }
    { nextId := 31,
      products := [{ id := 1, sellerId := 2, price := 7, stock := 20 }],
      addresses := [],
      carts := [{ id := 10, userId := some 4, sessionId := none,
                  expiresAt := none }],
      cartItems := [{ id := 30, cartId := 10, productId := 1, quantity := 5,
                      reservationExpiresAt := some 900000 }],
      orders := [], orderItems := [] }
    { nextId := 31,
      products := [{ id := 1, sellerId := 2, price := 7, stock := 20 }],
      addresses := [],
      carts := [{ id := 10, userId := some 4, sessionId := none,
                  expiresAt := none }],
      cartItems := [{ id := 30, cartId := 10, productId := 1, quantity := 5,
                      reservationExpiresAt := some 900001 }],
      orders := [], orderItems := [] }
    0 1 4 1 5 (by decide) (by decide)

/-! ### Claim C5: merging an anonymous cart (corrected)

The claim says availability during merge excludes both the source
(anonymous) row and the destination (user-cart) row.  The code's aggregate
excludes only the destination row (`id: { not: existingItem.id }` — or
nothing when no destination row exists); the source row still counts while
its reservation is active.  An anonymous cart holding the product's whole
stock therefore drops its own item on merge. -/

/-- Counterexample to C5 as stated: stock 2, anonymous item qty 2, empty
user cart.  Availability excluding both the source row and any destination
row is 2 ≥ 2, so the claim requires the item to merge — but the code counts
the still-active source row, computes 0 < 2, and drops the item; the user
cart ends up without it. -/
theorem mergeAnonymousCart_source_counted_counterexample :
    mergeAnonymousCart
      { nextId := 30,
        products := [{ id := 1, sellerId := 2, price := 7, stock := 2 }],
        addresses := [],
        carts := [{ id := 10, userId := none, sessionId := some 7,
                    expiresAt := some 1000000 },
                  { id := 11, userId := some 4, sessionId := none,
                    expiresAt := none }],
        cartItems := [{ id := 20, cartId := 10, productId := 1, quantity := 2,
                        reservationExpiresAt := some 100 }],
        orders := [], orderItems := [] }
      0 4 7 =
      .ok { nextId := 30,
            products := [{ id := 1, sellerId := 2, price := 7, stock := 2 }],
            addresses := [],
            carts := [{ id := 11, userId := some 4, sessionId := none,
                        expiresAt := none }],
            cartItems := [], orders := [], orderItems := [] }
    ∧ (2 : Int) - (reservedExcludingItem
        { nextId := 30,
          products := [{ id := 1, sellerId := 2, price := 7, stock := 2 }],
          addresses := [],
          carts := [{ id := 10, userId := none, sessionId := some 7,
                      expiresAt := some 1000000 },
                    { id := 11, userId := some 4, sessionId := none,
                      expiresAt := none }],
          cartItems := [{ id := 20, cartId := 10, productId := 1,
                          quantity := 2,
                          reservationExpiresAt := some 100 }],
          orders := [], orderItems := [] } 1 20 0 : Int) ≥ 2 := by
  exact ⟨by decide, by decide⟩

/-- **C5 (amended).** For a merge of a single-item anonymous cart into a
user cart that already holds a row for the product: availability is
recomputed excluding only the destination row (the source row still counts
while active); if the anonymous quantity fits, the quantities are summed
into the destination row with a refreshed reservation; if it does not fit,
the destination row is left untouched (no partial fill); either way the
anonymous cart is deleted afterward.  Scenario F (user 3 + anonymous 2 with
enough stock) still merges to 5. -/
theorem mergeAnonymousCart_dest_excluded (db : DB) (now u s : Nat)
    (ac uc : Cart) (a e : CartItem) (prod : Product)
    (hanon : findAnonCartLatest db s = some ac)
    (hitems : db.cartItems.filter (fun it => it.cartId == ac.id) = [a])
    (hprod : findProduct db a.productId = some prod)
    (hucart : findUserCart db u = some uc)
    (hne : uc.id ≠ ac.id)
    (he : findCartItem db uc.id a.productId = some e) :
    ∃ db', mergeAnonymousCart db now u s = .ok db'
      ∧ findUserCart db' u = some uc
      ∧ (∀ c ∈ db'.carts, c.id ≠ ac.id)
      ∧ ((a.quantity : Int) ≤ prod.stock -
            (reservedExcludingItem db a.productId e.id now : Int) →
          findCartItem db' uc.id a.productId =
            some { e with
                   quantity := e.quantity + a.quantity,
                   reservationExpiresAt := some (now + RESERVATION_TTL) })
      ∧ (prod.stock - (reservedExcludingItem db a.productId e.id now : Int)
            < (a.quantity : Int) →
          findCartItem db' uc.id a.productId = some e) := by
  have hecart : (e.cartId == uc.id) = true := by
    have h := List.find?_some he
    simp only [Bool.and_eq_true] at h
    exact h.1
  have hecart' : (e.cartId == ac.id) = false := by
    simp only [beq_iff_eq] at hecart ⊢
    simp only [beq_eq_false_iff_ne]
    rw [hecart]
    exact hne
  have hrun : mergeAnonymousCart db now u s =
      .ok (deleteCart (mergeStep db now uc.id prod.stock a) ac.id) := by
    unfold mergeAnonymousCart
    rw [hanon]
    simp only [hitems, hucart, List.isEmpty_cons, Bool.false_eq_true,
      if_false, mergeLoop, hprod, bind, Except.bind]
  refine ⟨deleteCart (mergeStep db now uc.id prod.stock a) ac.id, hrun,
    ?_, ?_, ?_, ?_⟩
  · -- the user cart survives: mergeStep keeps carts, deleteCart filters
    have hc : (mergeStep db now uc.id prod.stock a).carts = db.carts := by
      unfold mergeStep
      split
      · split
        · rfl
        · rfl
      · split
        · rfl
        · rfl
    show ((mergeStep db now uc.id prod.stock a).carts.filter
      (fun c => !(c.id == ac.id))).find? (fun c => c.userId == some u) = _
    rw [hc]
    refine find?_filter_of_find? _ _ _ _ hucart ?_
    simp only [beq_eq_false_iff_ne] at *
    simpa using hne
  · intro c hcmem
    have := List.of_mem_filter hcmem
    simpa using this
  · intro hfit
    have hstep : mergeStep db now uc.id prod.stock a =
        { db with cartItems := db.cartItems.map (fun it =>
          if it.id == e.id then
            { it with quantity := e.quantity + a.quantity,
                      reservationExpiresAt := some (now + RESERVATION_TTL) }
          else it) } := by
      unfold mergeStep
      simp only [he]
      rw [if_pos (by push_cast; omega)]
    rw [hstep]
    have hmap : (db.cartItems.map (fun it =>
        if it.id == e.id then
          { it with quantity := e.quantity + a.quantity,
                    reservationExpiresAt := some (now + RESERVATION_TTL) }
        else it)).find?
        (fun it => it.cartId == uc.id && it.productId == a.productId) =
        some { e with
               quantity := e.quantity + a.quantity,
               reservationExpiresAt := some (now + RESERVATION_TTL) } := by
      rw [find?_map_pres _ _ _ (fun it => by
        by_cases h : (it.id == e.id) = true <;> simp [h])]
      have he2 : db.cartItems.find?
          (fun it => it.cartId == uc.id && it.productId == a.productId)
          = some e := he
      rw [he2]
      simp
    show ((db.cartItems.map _).filter (fun it => !(it.cartId == ac.id))).find?
      (fun it : CartItem =>
        it.cartId == uc.id && it.productId == a.productId) = _
    refine find?_filter_of_find? _ _ _ _ hmap ?_
    simpa using hecart'
  · intro hnofit
    have hstep : mergeStep db now uc.id prod.stock a = db := by
      unfold mergeStep
      simp only [he]
      rw [if_neg (by push_cast; omega)]
    rw [hstep]
    have he2 : db.cartItems.find?
        (fun it => it.cartId == uc.id && it.productId == a.productId)
        = some e := he
    show ((db.cartItems).filter (fun it => !(it.cartId == ac.id))).find?
      (fun it : CartItem =>
        it.cartId == uc.id && it.productId == a.productId) = _
    refine find?_filter_of_find? _ _ _ _ he2 ?_
    simpa using hecart'

/-- Witness for the amended C5: Scenario F — user cart holds 3, anonymous
cart holds 2, stock 5; the merge sums to 5 and removes the anonymous
cart. -/
theorem mergeAnonymousCart_dest_excluded_witness :
    ∃ db', mergeAnonymousCart
        { nextId := 30,
          products := [{ id := 1, sellerId := 2, price := 7, stock := 5 }],
          addresses := [],
          carts := [{ id := 10, userId := none, sessionId := some 7,
                      expiresAt := some 1000000 },
                    { id := 11, userId := some 4, sessionId := none,
                      expiresAt := none }],
          cartItems := [{ id := 20, cartId := 10, productId := 1,
                          quantity := 2,
                          reservationExpiresAt := some 100 },
                        { id := 21, cartId := 11, productId := 1,
                          quantity := 3,
                          reservationExpiresAt := some 100 }],
          orders := [], orderItems := [] } 0 4 7 = .ok db'
      ∧ findCartItem db' 11 1 =
          some { id := 21, cartId := 11, productId := 1, quantity := 5,
                 reservationExpiresAt := some (0 + RESERVATION_TTL) }
      ∧ (∀ c ∈ db'.carts, c.id ≠ 10) := by
  obtain ⟨db', hrun, -, hgone, hfit, -⟩ := mergeAnonymousCart_dest_excluded
    { nextId := 30,
      products := [{ id := 1, sellerId := 2, price := 7, stock := 5 }],
      addresses := [],
      carts := [{ id := 10, userId := none, sessionId := some 7,
                  expiresAt := some 1000000 },
                { id := 11, userId := some 4, sessionId := none,
                  expiresAt := none }],
      cartItems := [{ id := 20, cartId := 10, productId := 1, quantity := 2,
                      reservationExpiresAt := some 100 },
                    { id := 21, cartId := 11, productId := 1, quantity := 3,
                      reservationExpiresAt := some 100 }],
      orders := [], orderItems := [] }
    0 4 7
    { id := 10, userId := none, sessionId := some 7,
      expiresAt := some 1000000 }
    { id := 11, userId := some 4, sessionId := none, expiresAt := none }
    { id := 20, cartId := 10, productId := 1, quantity := 2,
      reservationExpiresAt := some 100 }
    { id := 21, cartId := 11, productId := 1, quantity := 3,
      reservationExpiresAt := some 100 }
    { id := 1, sellerId := 2, price := 7, stock := 5 }
    (by decide) (by decide) (by decide) (by decide) (by decide) (by decide)
  exact ⟨db', hrun, hfit (by decide), hgone⟩

/-! ### Quantity bookkeeping for the checkout/cancellation round trip -/

/-- Total quantity a list of order lines demands of one product. -/
def linesQty (lines : List OrderLine) (pid : Nat) : Nat :=
  (lines.map (fun l => if l.productId = pid then l.quantity else 0)).sum

/-- Total quantity the seller groups demand of one product. -/
def groupsQty (gs : List (Nat × List OrderLine)) (pid : Nat) : Nat :=
  (gs.map (fun g => linesQty g.2 pid)).sum

/-- Total quantity a list of order items holds of one product. -/
def itemsQty (items : List OrderItem) (pid : Nat) : Nat :=
  (items.map (fun i => if i.productId = pid then i.quantity else 0)).sum

/-- Total quantity a list of cart items reserves of one product. -/
def cartQty (items : List CartItem) (pid : Nat) : Nat :=
  (items.map (fun it => if it.productId = pid then it.quantity else 0)).sum

/-- Total quantity restored by the cancellation cascade snapshots. -/
def pairsQty (pairs : List (Nat × List OrderItem)) (pid : Nat) : Nat :=
  (pairs.map (fun pr => itemsQty pr.2 pid)).sum

/-- The authoritative stock of a product as stored (`none` when the row is
absent). -/
def stockOf (db : DB) (pid : Nat) : Option Int :=
  (findProduct db pid).map (·.stock)

theorem linesQty_cons (l : OrderLine) (ls : List OrderLine) (pid : Nat) :
    linesQty (l :: ls) pid =
      (if l.productId = pid then l.quantity else 0) + linesQty ls pid := by
  simp [linesQty]

/-- Inserting a line into the seller grouping adds exactly its quantity. -/
theorem groupsQty_insertGroup (acc : List (Nat × List OrderLine))
    (sid : Nat) (l : OrderLine) (pid : Nat) :
    groupsQty (insertGroup acc sid l) pid =
      groupsQty acc pid + (if l.productId = pid then l.quantity else 0) := by
  induction acc with
  | nil => simp [insertGroup, groupsQty, linesQty]
  | cons g rest ih =>
    obtain ⟨k, grp⟩ := g
    by_cases hk : k = sid
    · subst hk
      simp only [insertGroup, if_pos rfl, groupsQty, List.map_cons,
        List.sum_cons, linesQty, List.map_append, List.sum_append]
      simp [groupsQty, linesQty] at ih ⊢
      omega
    · simp only [insertGroup, if_neg hk, groupsQty, List.map_cons,
        List.sum_cons]
      simp only [groupsQty] at ih
      omega

/-- Grouping by seller preserves per-product demand. -/
theorem groupsQty_groupBySeller (lines : List OrderLine) (pid : Nat) :
    groupsQty (groupBySeller lines) pid = linesQty lines pid := by
  suffices h : ∀ acc, groupsQty (lines.foldl
      (fun acc l => insertGroup acc l.sellerId l) acc) pid =
      groupsQty acc pid + linesQty lines pid by
    have := h []
    simpa [groupsQty, groupBySeller] using this
  induction lines with
  | nil => intro acc; simp [linesQty]
  | cons l ls ih =>
    intro acc
    simp only [List.foldl_cons]
    rw [ih (insertGroup acc l.sellerId l), groupsQty_insertGroup,
      linesQty_cons]
    omega

/-- Enrichment preserves per-product demand (each line keeps its cart
item's product and quantity). -/
theorem enrichItems_linesQty (db : DB) (items : List CartItem)
    (lines : List OrderLine) (hok : enrichItems db items = .ok lines) :
    ∀ pid, linesQty lines pid = cartQty items pid := by
  induction items generalizing lines with
  | nil =>
    cases hok
    intro pid
    simp [linesQty, cartQty]
  | cons it rest ih =>
    intro pid
    simp only [enrichItems] at hok
    cases htl : toOrderLine db it with
    | none => rw [htl] at hok; cases hok
    | some l =>
      rw [htl] at hok
      simp only [bind, Except.bind] at hok
      cases hrest : enrichItems db rest with
      | error e => rw [hrest] at hok; cases hok
      | ok ls =>
        rw [hrest] at hok
        cases hok
        have hpid : l.productId = it.productId ∧ l.quantity = it.quantity := by
          unfold toOrderLine at htl
          cases hfp : findProduct db it.productId with
          | none => rw [hfp] at htl; cases htl
          | some p => rw [hfp] at htl; cases htl; exact ⟨rfl, rfl⟩
        rw [linesQty_cons]
        simp only [cartQty, List.map_cons, List.sum_cons]
        rw [hpid.1, hpid.2]
        have := ih ls hrest
        simp only [linesQty, cartQty] at this ⊢
        rw [this pid]

/-! ### Stock effects of the ledger primitives -/

theorem stockOf_decrement (db : DB) (pid qty : Nat) (p : Product)
    (hp : findProduct db pid = some p) (hge : (qty : Int) ≤ p.stock) :
    stockOf (decrementIfAvailable db pid qty).1 pid =
      some (p.stock - (qty : Int))
    ∧ ∀ q, q ≠ pid →
        stockOf (decrementIfAvailable db pid qty).1 q = stockOf db q := by
  have hp' : db.products.find? (fun x => x.id == pid) = some p := hp
  have hid := List.find?_some hp'
  constructor
  · show ((db.products.map _).find? (fun x : Product => x.id == pid)).map
      (·.stock) = _
    rw [find?_map_pres _ _ _ (fun x => by
      by_cases h : (x.id == pid && decide ((qty : Int) ≤ x.stock)) = true <;>
        simp [h])]
    rw [hp']
    have hideq : p.id = pid := by simpa using hid
    simp [hideq, hge]
  · intro q hq
    show ((db.products.map _).find? (fun x : Product => x.id == q)).map
      (·.stock) = _
    rw [find?_map_pres _ _ _ (fun x => by
      by_cases h : (x.id == pid && decide ((qty : Int) ≤ x.stock)) = true <;>
        simp [h])]
    cases hfq : db.products.find? (fun x => x.id == q) with
    | none => simp [stockOf, findProduct, hfq]
    | some r =>
      have hidr := List.find?_some hfq
      simp only [beq_iff_eq] at hidr
      have hrne : ¬(r.id = pid) := by rw [hidr]; exact hq
      simp [stockOf, findProduct, hfq, hrne]

theorem stockOf_increment (db db' : DB) (pid qty : Nat)
    (hok : incrementStock db pid qty = .ok db') :
    stockOf db' pid = (stockOf db pid).map (fun x => x + (qty : Int))
    ∧ ∀ q, q ≠ pid → stockOf db' q = stockOf db q := by
  unfold incrementStock at hok
  split at hok
  · rename_i hsome
    cases hok
    constructor
    · show ((db.products.map _).find? (fun x : Product => x.id == pid)).map
        (·.stock) = _
      rw [find?_map_pres _ _ _ (fun x => by
        by_cases h : (x.id == pid) = true <;> simp [h])]
      cases hfp : db.products.find? (fun x => x.id == pid) with
      | none => simp [stockOf, findProduct, hfp]
      | some p =>
        have hid := List.find?_some hfp
        have hideq : p.id = pid := by simpa using hid
        simp [stockOf, findProduct, hfp, hideq]
    · intro q hq
      show ((db.products.map _).find? (fun x : Product => x.id == q)).map
        (·.stock) = _
      rw [find?_map_pres _ _ _ (fun x => by
        by_cases h : (x.id == pid) = true <;> simp [h])]
      cases hfq : db.products.find? (fun x => x.id == q) with
      | none => simp [stockOf, findProduct, hfq]
      | some r =>
        have hidr := List.find?_some hfq
        simp only [beq_iff_eq] at hidr
        have hrne : ¬(r.id = pid) := by rw [hidr]; exact hq
        simp [stockOf, findProduct, hfq, hrne]
  · cases hok

/-- The restore loop adds back exactly the items' per-product quantities. -/
theorem restoreItems_stockOf (items : List OrderItem) :
    ∀ db db' : DB, restoreItems db items = .ok db' →
      ∀ pid, stockOf db' pid =
        (stockOf db pid).map (fun x => x + (itemsQty items pid : Int)) := by
  induction items with
  | nil =>
    intro db db' hok pid
    cases hok
    simp [itemsQty]
  | cons it rest ih =>
    intro db db' hok pid
    simp only [restoreItems] at hok
    cases hi : incrementStock db it.productId it.quantity with
    | error e => rw [hi] at hok; cases hok
    | ok db1 =>
      rw [hi] at hok
      have h1 := stockOf_increment db db1 it.productId it.quantity hi
      have h2 := ih db1 db' hok pid
      rw [h2]
      by_cases hpid : pid = it.productId
      · have e1 : stockOf db1 pid =
            (stockOf db pid).map (fun x => x + (it.quantity : Int)) := by
          rw [hpid]; exact h1.1
        have hpid' : it.productId = pid := hpid.symm
        have e2 : itemsQty (it :: rest) pid =
            it.quantity + itemsQty rest pid := by
          simp [itemsQty, hpid']
        rw [e1, e2]
        cases hs : stockOf db pid with
        | none => rfl
        | some x =>
          show some _ = some _
          congr 1
          push_cast
          ring
      · have e1 : stockOf db1 pid = stockOf db pid := h1.2 pid hpid
        have e2 : itemsQty (it :: rest) pid = itemsQty rest pid := by
          simp only [itemsQty, List.map_cons, List.sum_cons]
          rw [if_neg (fun h => hpid h.symm)]
          omega
        rw [e1, e2]

theorem setOrderCancelled_stockOf (db : DB) (oid pid : Nat) :
    stockOf (setOrderCancelled db oid) pid = stockOf db pid := rfl

theorem setItemsCancelled_stockOf (db : DB) (oid pid : Nat) :
    stockOf (setItemsCancelled db oid) pid = stockOf db pid := rfl

/-- The cancellation cascade adds back exactly the snapshots' per-product
quantities. -/
theorem cancelSubsLoop_stockOf (pairs : List (Nat × List OrderItem)) :
    ∀ db db' : DB, cancelSubsLoop db pairs = .ok db' →
      ∀ pid, stockOf db' pid =
        (stockOf db pid).map (fun x => x + (pairsQty pairs pid : Int)) := by
  induction pairs with
  | nil =>
    intro db db' hok pid
    cases hok
    simp [pairsQty]
  | cons pr rest ih =>
    intro db db' hok pid
    obtain ⟨sid, snapshot⟩ := pr
    simp only [cancelSubsLoop] at hok
    cases hr : restoreItems (setItemsCancelled (setOrderCancelled db sid) sid)
        snapshot with
    | error e => rw [hr] at hok; cases hok
    | ok db3 =>
      rw [hr] at hok
      have h1 := restoreItems_stockOf snapshot _ db3 hr pid
      rw [setItemsCancelled_stockOf, setOrderCancelled_stockOf] at h1
      have h2 := ih db3 db' hok pid
      rw [h2, h1]
      have e2 : pairsQty ((sid, snapshot) :: rest) pid =
          itemsQty snapshot pid + pairsQty rest pid := by
        simp [pairsQty]
      rw [e2]
      cases hs : stockOf db pid with
      | none => rfl
      | some x =>
        show some _ = some _
        congr 1
        push_cast
        ring

/-! ### Effect of the checkout transaction -/

theorem deductAndCreate_effect (db db' : DB) (subId : Nat) (l : OrderLine)
    (hok : deductAndCreate db subId l = .ok db') :
    (stockOf db' l.productId =
      (stockOf db l.productId).map (fun x => x - (l.quantity : Int)))
    ∧ (∀ q, q ≠ l.productId → stockOf db' q = stockOf db q)
    ∧ db'.orders = db.orders
    ∧ db'.carts = db.carts
    ∧ db'.cartItems = db.cartItems
    ∧ db'.addresses = db.addresses
    ∧ db'.nextId = db.nextId + 1
    ∧ db'.orderItems = db.orderItems ++
        [{ id := db.nextId, orderId := subId, productId := l.productId,
           sellerId := l.sellerId, quantity := l.quantity, price := l.price,
           status := .PENDING }] := by
  unfold deductAndCreate at hok
  split at hok
  · cases hok
  · rename_i product hp
    split at hok
    · cases hok
    · rename_i hlt
      simp only [] at hok
      split at hok
      · cases hok
      · cases hok
        have hge : (l.quantity : Int) ≤ product.stock := by omega
        have hdec := stockOf_decrement db l.productId l.quantity product hp hge
        refine ⟨?_, ?_, rfl, rfl, rfl, rfl, rfl, rfl⟩
        · show stockOf (decrementIfAvailable db l.productId l.quantity).1
            l.productId = _
          rw [hdec.1]
          have : stockOf db l.productId = some product.stock := by
            simp [stockOf, hp]
          rw [this]
          rfl
        · intro q hq
          show stockOf (decrementIfAvailable db l.productId l.quantity).1 q = _
          exact hdec.2 q hq

theorem processLines_effect (subId : Nat) (ls : List OrderLine) :
    ∀ db db' : DB, processLines subId db ls = .ok db' →
      (∀ pid, stockOf db' pid =
        (stockOf db pid).map (fun x => x - (linesQty ls pid : Int)))
      ∧ db'.orders = db.orders
      ∧ db'.carts = db.carts
      ∧ db'.cartItems = db.cartItems
      ∧ db'.addresses = db.addresses
      ∧ db.nextId ≤ db'.nextId
      ∧ (∀ oid, oid ≠ subId → itemsOfOrder db' oid = itemsOfOrder db oid)
      ∧ (∀ pid, itemsQty (itemsOfOrder db' subId) pid =
          itemsQty (itemsOfOrder db subId) pid + linesQty ls pid)
      ∧ ((∀ i ∈ db.orderItems, i.orderId < db.nextId) → subId < db.nextId →
          ∀ i ∈ db'.orderItems, i.orderId < db'.nextId) := by
  induction ls with
  | nil =>
    intro db db' hok
    cases hok
    refine ⟨fun pid => ?_, rfl, rfl, rfl, rfl, le_refl _, fun _ _ => rfl,
      fun pid => ?_, fun h _ => h⟩
    · simp [linesQty]
    · simp [linesQty]
  | cons l rest ih =>
    intro db db' hok
    simp only [processLines] at hok
    cases hd : deductAndCreate db subId l with
    | error e => rw [hd] at hok; cases hok
    | ok dbm =>
      rw [hd] at hok
      obtain ⟨s1, s2,horders, hcarts, hci, haddr, hnext, hitems⟩ :=
        deductAndCreate_effect db dbm subId l hd
      obtain ⟨iA, iB, iC, iD, iE, iF, iG, iH, iI⟩ := ih dbm db' hok
      have hio : ∀ oid, itemsOfOrder dbm oid = itemsOfOrder db oid ++
          (if subId = oid then
            [{ id := db.nextId, orderId := subId, productId := l.productId,
               sellerId := l.sellerId, quantity := l.quantity,
               price := l.price, status := .PENDING }]
           else []) := by
        intro oid
        show dbm.orderItems.filter _ = _
        rw [hitems, List.filter_append]
        congr 1
        by_cases hs : subId = oid
        · simp [hs]
        · rw [if_neg hs]
          simp only [List.filter_cons, List.filter_nil]
          rw [if_neg (by simpa using hs)]
      refine ⟨fun pid => ?_, by rw [iB, horders], by rw [iC, hcarts],
        by rw [iD, hci], by rw [iE, haddr], by omega,
        fun oid hoid => ?_, fun pid => ?_, fun hON hSU => ?_⟩
      · rw [iA pid]
        by_cases hpid : pid = l.productId
        · have e1 : stockOf dbm pid =
              (stockOf db pid).map (fun x => x - (l.quantity : Int)) := by
            rw [hpid]; exact s1
          have e2 : linesQty (l :: rest) pid =
              l.quantity + linesQty rest pid := by
            have hpid' : l.productId = pid := hpid.symm
            simp [linesQty, hpid']
          rw [e1, e2]
          cases hs : stockOf db pid with
          | none => rfl
          | some x =>
            show some _ = some _
            congr 1
            push_cast
            ring
        · have e1 : stockOf dbm pid = stockOf db pid := s2 pid hpid
          have e2 : linesQty (l :: rest) pid = linesQty rest pid := by
            simp only [linesQty, List.map_cons, List.sum_cons]
            rw [if_neg (fun h => hpid h.symm)]
            omega
          rw [e1, e2]
      · rw [iG oid hoid, hio oid, if_neg (fun h => hoid h.symm)]
        simp
      · rw [iH pid, hio subId, if_pos rfl]
        have : itemsQty (itemsOfOrder db subId ++
            [{ id := db.nextId, orderId := subId, productId := l.productId,
               sellerId := l.sellerId, quantity := l.quantity,
               price := l.price, status := .PENDING }]) pid =
            itemsQty (itemsOfOrder db subId) pid +
              (if l.productId = pid then l.quantity else 0) := by
          simp [itemsQty]
        rw [this]
        have e2 : linesQty (l :: rest) pid =
            (if l.productId = pid then l.quantity else 0) +
              linesQty rest pid := by
          simp [linesQty]
        rw [e2]
        omega
      · refine iI ?_ (by omega)
        intro i hi
        rw [hitems] at hi
        rw [hnext]
        rcases List.mem_append.mp hi with h | h
        · exact Nat.lt_succ_of_lt (hON i h)
        · simp only [List.mem_singleton] at h
          subst h
          exact Nat.lt_succ_of_lt hSU

theorem processGroups_effect (parentId userId addressId : Nat)
    (gs : List (Nat × List OrderLine)) :
    ∀ db db' : DB,
      processGroups parentId userId addressId db gs = .ok db' →
      (∀ i ∈ db.orderItems, i.orderId < db.nextId) →
      ∃ newSubs : List Order,
        db'.orders = db.orders ++ newSubs
        ∧ (∀ pid, stockOf db' pid =
            (stockOf db pid).map (fun x => x - (groupsQty gs pid : Int)))
        ∧ db'.carts = db.carts
        ∧ db'.cartItems = db.cartItems
        ∧ db'.addresses = db.addresses
        ∧ db.nextId ≤ db'.nextId
        ∧ (∀ o ∈ newSubs, o.parentOrderId = some parentId
            ∧ o.status = .PENDING ∧ o.userId = userId ∧ o.isParent = false
            ∧ db.nextId ≤ o.id)
        ∧ newSubs.length = gs.length
        ∧ (∀ pid, pairsQty (newSubs.map
            (fun s => (s.id, itemsOfOrder db' s.id))) pid = groupsQty gs pid)
        ∧ (∀ oid, oid < db.nextId → itemsOfOrder db' oid = itemsOfOrder db oid)
        ∧ (∀ i ∈ db'.orderItems, i.orderId < db'.nextId) := by
  induction gs with
  | nil =>
    intro db db' hok hON
    cases hok
    refine ⟨[], by simp, fun pid => ?_, rfl, rfl, rfl, le_refl _,
      by simp, rfl, fun pid => ?_, fun oid _ => rfl, hON⟩
    · simp only [groupsQty, List.map_nil, List.sum_nil, Nat.cast_zero]
      cases hs : stockOf db pid <;> simp
    · simp [pairsQty, groupsQty]
  | cons g rest ih =>
    intro db db' hok hON
    obtain ⟨sid, lines⟩ := g
    simp only [processGroups] at hok
    cases hpl : processLines db.nextId
        { db with
          nextId := db.nextId + 1,
          orders := db.orders ++
            [{ id := db.nextId, userId := userId,
               parentOrderId := some parentId, sellerId := some sid,
               addressId := addressId,
               totalAmount :=
                 (lines.map (fun l => l.price * (l.quantity : Int))).sum,
               status := .PENDING, paymentStatus := .PENDING,
               isParent := false }] }
        lines with
    | error e => rw [hpl] at hok; cases hok
    | ok db2 =>
      rw [hpl] at hok
      obtain ⟨pA, pB, pC, pD, pE, pF, pG, pH, pI⟩ :=
        processLines_effect db.nextId lines _ db2 hpl
      have hON2 : ∀ i ∈ db2.orderItems, i.orderId < db2.nextId := by
        refine pI ?_ (by simp)
        intro i hi
        exact Nat.lt_succ_of_lt (hON i hi)
      obtain ⟨newSubs', qA, qB, qC, qD, qE, qF, qG, qH, qI, qJ, qK⟩ :=
        ih db2 db' hok hON2
      have hnext1 : db.nextId + 1 ≤ db2.nextId := pF
      refine ⟨({ id := db.nextId, userId := userId,
                 parentOrderId := some parentId, sellerId := some sid,
                 addressId := addressId,
                 totalAmount :=
                   (lines.map (fun l => l.price * (l.quantity : Int))).sum,
                 status := .PENDING, paymentStatus := .PENDING,
                 isParent := false } : Order) :: newSubs',
        ?_, fun pid => ?_, by rw [qC, pC], by rw [qD, pD], by rw [qE, pE],
        by omega, ?_, by simp [qH], fun pid => ?_, fun oid hoid => ?_, qK⟩
      · rw [qA, pB]
        simp
      · rw [qB pid, pA pid]
        have e2 : groupsQty ((sid, lines) :: rest) pid =
            linesQty lines pid + groupsQty rest pid := by
          simp [groupsQty]
        rw [e2]
        have : stockOf { db with
            nextId := db.nextId + 1,
            orders := db.orders ++
              [{ id := db.nextId, userId := userId,
                 parentOrderId := some parentId, sellerId := some sid,
                 addressId := addressId,
                 totalAmount :=
                   (lines.map (fun l => l.price * (l.quantity : Int))).sum,
                 status := .PENDING, paymentStatus := .PENDING,
                 isParent := false }] } pid = stockOf db pid := rfl
        rw [this]
        cases hs : stockOf db pid with
        | none => rfl
        | some x =>
          show some _ = some _
          congr 1
          push_cast
          ring
      · intro o ho
        rcases List.mem_cons.mp ho with h | h
        · subst h
          exact ⟨rfl, rfl, rfl, rfl, le_refl _⟩
        · obtain ⟨r1, r2, r3, r4, r5⟩ := qG o h
          exact ⟨r1, r2, r3, r4, by omega⟩
      · have hsubitems : itemsOfOrder db' db.nextId =
            itemsOfOrder db2 db.nextId := qJ db.nextId (by omega)
        have hzero : itemsOfOrder { db with
            nextId := db.nextId + 1,
            orders := db.orders ++
              [{ id := db.nextId, userId := userId,
                 parentOrderId := some parentId, sellerId := some sid,
                 addressId := addressId,
                 totalAmount :=
                   (lines.map (fun l => l.price * (l.quantity : Int))).sum,
                 status := .PENDING, paymentStatus := .PENDING,
                 isParent := false }] } db.nextId = [] := by
          show db.orderItems.filter (fun i => i.orderId == db.nextId) = []
          rw [List.filter_eq_nil]
          intro i hi
          have := hON i hi
          simp only [beq_iff_eq]
          omega
        have hcons : pairsQty ((({ id := db.nextId, userId := userId,
                                   parentOrderId := some parentId,
                                   sellerId := some sid,
                                   addressId := addressId,
                                   totalAmount :=
                                     (lines.map (fun l =>
                                       l.price * (l.quantity : Int))).sum,
                                   status := .PENDING,
                                   paymentStatus := .PENDING,
                                   isParent := false } : Order) ::
              newSubs').map (fun s => (s.id, itemsOfOrder db' s.id))) pid =
            itemsQty (itemsOfOrder db' db.nextId) pid +
              pairsQty (newSubs'.map
                (fun s => (s.id, itemsOfOrder db' s.id))) pid := by
          simp [pairsQty]
        rw [hcons, qI pid, hsubitems, pH pid, hzero]
        have e2 : groupsQty ((sid, lines) :: rest) pid =
            linesQty lines pid + groupsQty rest pid := by
          simp [groupsQty]
        rw [e2]
        simp only [itemsQty, List.map_nil, List.sum_nil]
        omega
      · have h1 : itemsOfOrder db' oid = itemsOfOrder db2 oid :=
          qJ oid (by omega)
        have h2 : itemsOfOrder db2 oid = itemsOfOrder db oid :=
          pG oid (by omega)
        rw [h1, h2]

/-- Referential well-formedness of the id counter: every stored order id,
parent reference and item order reference is below `nextId`. -/
structure WFdb (db : DB) : Prop where
  ordersLt : ∀ o ∈ db.orders, o.id < db.nextId
  parentLt : ∀ o ∈ db.orders, ∀ q, o.parentOrderId = some q → q < db.nextId
  itemsLt : ∀ i ∈ db.orderItems, i.orderId < db.nextId

theorem insertGroup_ne_nil (acc : List (Nat × List OrderLine)) (sid : Nat)
    (l : OrderLine) : insertGroup acc sid l ≠ [] := by
  cases acc with
  | nil => simp [insertGroup]
  | cons g rest =>
    obtain ⟨k, grp⟩ := g
    simp only [insertGroup]
    split <;> simp

theorem groupBySeller_ne_nil (lines : List OrderLine) (h : lines ≠ []) :
    groupBySeller lines ≠ [] := by
  cases lines with
  | nil => exact absurd rfl h
  | cons l ls =>
    show List.foldl _ (insertGroup [] l.sellerId l) ls ≠ []
    have hgen : ∀ (xs : List OrderLine) (acc : List (Nat × List OrderLine)),
        acc ≠ [] →
        xs.foldl (fun acc l => insertGroup acc l.sellerId l) acc ≠ [] := by
      intro xs
      induction xs with
      | nil => intro acc hacc; exact hacc
      | cons x rest ih =>
        intro acc hacc
        simp only [List.foldl_cons]
        exact ih _ (insertGroup_ne_nil acc x.sellerId x)
    exact hgen ls _ (insertGroup_ne_nil [] l.sellerId l)

theorem enrichItems_ne_nil (db : DB) (items : List CartItem)
    (lines : List OrderLine) (hok : enrichItems db items = .ok lines)
    (h : items ≠ []) : lines ≠ [] := by
  cases items with
  | nil => exact absurd rfl h
  | cons it rest =>
    simp only [enrichItems] at hok
    cases htl : toOrderLine db it with
    | none => rw [htl] at hok; cases hok
    | some l =>
      rw [htl] at hok
      simp only [bind, Except.bind] at hok
      cases hrest : enrichItems db rest with
      | error e => rw [hrest] at hok; cases hok
      | ok ls =>
        rw [hrest] at hok
        cases hok
        simp

/-- Characterization of a successful `createOrder`: the parent id is the
fresh id; the cart is cleared; every product's stock drops by exactly the
cart's per-product demand; the parent order is PENDING and owned by the
user; its sub-orders are fresh and their items restore exactly the cart's
demand. -/
theorem createOrder_effect (db db' : DB) (now u a oid : Nat) (cart : Cart)
    (hwf : WFdb db)
    (hcart : findUserCart db u = some cart)
    (hok : createOrder db now u a = .ok (db', oid)) :
    oid = db.nextId
    ∧ db'.cartItems = db.cartItems.filter (fun it => !(it.cartId == cart.id))
    ∧ (∀ pid, stockOf db' pid = (stockOf db pid).map (fun x =>
        x - (cartQty (db.cartItems.filter
          (fun it => it.cartId == cart.id)) pid : Int)))
    ∧ (∃ parentRow : Order,
        db'.orders.find? (fun o => o.id == oid && o.userId == u)
          = some parentRow
        ∧ parentRow.status = .PENDING ∧ parentRow.isParent = true)
    ∧ subOrdersOf db' oid ≠ []
    ∧ (∀ pid, pairsQty ((subOrdersOf db' oid).map
        (fun s => (s.id, itemsOfOrder db' s.id))) pid =
        cartQty (db.cartItems.filter (fun it => it.cartId == cart.id)) pid)
    ∧ (∀ s ∈ subOrdersOf db' oid, s.status = .PENDING) := by
  unfold createOrder at hok
  rw [hcart] at hok
  simp only [bind, Except.bind] at hok
  split at hok
  · cases hok
  · rename_i hne
    split at hok
    · cases hok
    · cases hpre : precheckItems db now cart.id
          (db.cartItems.filter (fun it => it.cartId == cart.id)) with
      | error e => rw [hpre] at hok; cases hok
      | ok uu =>
        rw [hpre] at hok
        simp only [] at hok
        cases hen : enrichItems db
            (db.cartItems.filter (fun it => it.cartId == cart.id)) with
        | error e => rw [hen] at hok; cases hok
        | ok lines =>
          rw [hen] at hok
          simp only [] at hok
          cases hpg : processGroups db.nextId u a
              { db with
                nextId := db.nextId + 1,
                orders := db.orders ++
                  [{ id := db.nextId, userId := u, parentOrderId := none,
                     sellerId := none, addressId := a,
                     totalAmount :=
                       (lines.map (fun l => l.price * (l.quantity : Int))).sum,
                     status := .PENDING, paymentStatus := .PENDING,
                     isParent := true }] }
              (groupBySeller lines) with
          | error e => rw [hpg] at hok; cases hok
          | ok db2 =>
            rw [hpg] at hok
            cases hok
            have hON1 : ∀ i ∈ ({ db with
                nextId := db.nextId + 1,
                orders := db.orders ++
                  [{ id := db.nextId, userId := u, parentOrderId := none,
                     sellerId := none, addressId := a,
                     totalAmount :=
                       (lines.map (fun l => l.price * (l.quantity : Int))).sum,
                     status := .PENDING, paymentStatus := .PENDING,
                     isParent := true }] } : DB).orderItems,
                i.orderId < ({ db with
                nextId := db.nextId + 1,
                orders := db.orders ++
                  [{ id := db.nextId, userId := u, parentOrderId := none,
                     sellerId := none, addressId := a,
                     totalAmount :=
                       (lines.map (fun l => l.price * (l.quantity : Int))).sum,
                     status := .PENDING, paymentStatus := .PENDING,
                     isParent := true }] } : DB).nextId := by
              intro i hi
              exact Nat.lt_succ_of_lt (hwf.itemsLt i hi)
            obtain ⟨newSubs, qA, qB, qC, qD, qE, qF, qG, qH, qI, qJ, qK⟩ :=
              processGroups_effect db.nextId u a (groupBySeller lines)
                _ db2 hpg hON1
            have hlq : ∀ pid, linesQty lines pid =
                cartQty (db.cartItems.filter
                  (fun it => it.cartId == cart.id)) pid :=
              enrichItems_linesQty db _ lines hen
            have hgq : ∀ pid, groupsQty (groupBySeller lines) pid =
                cartQty (db.cartItems.filter
                  (fun it => it.cartId == cart.id)) pid := by
              intro pid
              rw [groupsQty_groupBySeller, hlq pid]
            have hfold : db2.orders = (db.orders ++
                [{ id := db.nextId, userId := u, parentOrderId := none,
                   sellerId := none, addressId := a,
                   totalAmount :=
                     (lines.map (fun l => l.price * (l.quantity : Int))).sum,
                   status := .PENDING, paymentStatus := .PENDING,
                   isParent := true }]) ++ newSubs := qA
            have hsubs : subOrdersOf db2 db.nextId = newSubs := by
              show db2.orders.filter
                (fun o => o.parentOrderId == some db.nextId) = newSubs
              rw [hfold, List.filter_append, List.filter_append]
              have h1 : db.orders.filter
                  (fun o => o.parentOrderId == some db.nextId) = [] := by
                rw [List.filter_eq_nil_iff]
                intro o ho
                simp only [beq_iff_eq]
                intro hp
                exact absurd (hwf.parentLt o ho db.nextId hp) (by omega)
              have h2 : ([{ id := db.nextId, userId := u,
                            parentOrderId := none, sellerId := none,
                            addressId := a,
                            totalAmount :=
                              (lines.map (fun l =>
                                l.price * (l.quantity : Int))).sum,
                            status := .PENDING, paymentStatus := .PENDING,
                            isParent := true }] : List Order).filter
                  (fun o => o.parentOrderId == some db.nextId) = [] := by
                simp
              have h3 : newSubs.filter
                  (fun o => o.parentOrderId == some db.nextId) = newSubs := by
                rw [List.filter_eq_self]
                intro o ho
                simp [(qG o ho).1]
              rw [h1, h2, h3]
              simp
            refine ⟨rfl, ?_, fun pid => ?_, ?_, ?_, fun pid => ?_, ?_⟩
            · show db2.cartItems.filter _ = _
              rw [qD]
            · have h1 : stockOf (clearCart db2 cart.id) pid =
                  stockOf db2 pid := rfl
              rw [h1, qB pid]
              rw [hgq pid]
              rfl
            · refine ⟨{ id := db.nextId, userId := u, parentOrderId := none,
                        sellerId := none, addressId := a,
                        totalAmount :=
                          (lines.map (fun l =>
                            l.price * (l.quantity : Int))).sum,
                        status := .PENDING, paymentStatus := .PENDING,
                        isParent := true }, ?_, rfl, rfl⟩
              show db2.orders.find? _ = _
              rw [hfold, List.find?_append, List.find?_append]
              have h1 : db.orders.find?
                  (fun o => o.id == db.nextId && o.userId == u) = none := by
                rw [List.find?_eq_none]
                intro o ho
                have := hwf.ordersLt o ho
                simp only [Bool.and_eq_true, beq_iff_eq, not_and]
                intro h
                omega
              rw [h1]
              simp
            · have hso : subOrdersOf (clearCart db2 cart.id) db.nextId =
                  subOrdersOf db2 db.nextId := rfl
              rw [hso, hsubs]
              have hlines : lines ≠ [] := by
                refine enrichItems_ne_nil db _ lines hen ?_
                intro hnil
                rw [hnil] at hne
                simp at hne
              have hg : groupBySeller lines ≠ [] :=
                groupBySeller_ne_nil lines hlines
              intro hnil
              rw [hnil] at qH
              exact hg (List.eq_nil_of_length_eq_zero qH.symm)
            · have hso : subOrdersOf (clearCart db2 cart.id) db.nextId =
                  subOrdersOf db2 db.nextId := rfl
              rw [hso, hsubs]
              have := qI pid
              rw [hgq pid] at this
              rw [show (newSubs.map (fun s =>
                  (s.id, itemsOfOrder (clearCart db2 cart.id) s.id))) =
                  (newSubs.map (fun s => (s.id, itemsOfOrder db2 s.id)))
                from rfl]
              exact this
            · intro s hs
              have hso : subOrdersOf (clearCart db2 cart.id) db.nextId =
                  subOrdersOf db2 db.nextId := rfl
              rw [hso, hsubs] at hs
              exact (qG s hs).2.1

/-! ### Claim C3: createOrder then cancelOrder is a net-zero round trip -/

/-- **C3.** Running `createOrder` to completion and then `cancelOrder` on
the resulting PENDING parent order restores every product's authoritative
stock to exactly its pre-order value: checkout deducts each cart line's
quantity and cancellation increments each order item's product by that
item's quantity, and the two cascades cover the same per-product totals. -/
theorem createOrder_cancelOrder_roundtrip (db db1 db2 : DB)
    (now u a oid : Nat) (cart : Cart)
    (hwf : WFdb db)
    (hcart : findUserCart db u = some cart)
    (h1 : createOrder db now u a = .ok (db1, oid))
    (h2 : cancelOrder db1 u oid = .ok db2) :
    ∀ pid, stockOf db2 pid = stockOf db pid := by
  obtain ⟨hoid, hcc, hstock, ⟨parentRow, hfindP, hPend, hPar⟩, hsubne, hpq,
    hsubstat⟩ := createOrder_effect db db1 now u a oid cart hwf hcart h1
  unfold cancelOrder at h2
  split at h2
  · cases h2
  · rename_i order horder
    rw [hfindP] at horder
    injection horder with horder'
    subst horder'
    split at h2
    · cases h2
    · simp only [bind, Except.bind] at h2
      split at h2
      · cases hc : cancelSubsLoop db1 ((subOrdersOf db1 oid).map
            (fun s => (s.id, itemsOfOrder db1 s.id))) with
        | error e => rw [hc] at h2; cases h2
        | ok db2m =>
          rw [hc] at h2
          cases h2
          intro pid
          have hloop := cancelSubsLoop_stockOf _ db1 db2m hc pid
          have hset : stockOf (setOrderCancelled db2m oid) pid =
              stockOf db2m pid := rfl
          rw [hset, hloop, hpq pid, hstock pid]
          cases hs : stockOf db pid with
          | none => rfl
          | some x =>
            show some _ = some _
            congr 1
            ring
      · exfalso
        rename_i hcond
        apply hcond
        rw [hPar]
        simp only [Bool.true_and, Bool.not_eq_true']
        cases hsub : subOrdersOf db1 oid with
        | nil => exact absurd hsub hsubne
        | cons x xs => rfl

/-- Witness for C3: stock 5, order of 2 units, cancel — stock is 5 again. -/
theorem createOrder_cancelOrder_roundtrip_witness :
    stockOf
      { nextId := 33,
        products := [{ id := 1, sellerId := 2, price := 7, stock := 5 }],
        addresses := [{ id := 3, userId := 4 }],
        carts := [{ id := 10, userId := some 4, sessionId := none,
                    expiresAt := none }],
        cartItems := [],
        orders := [{ id := 30, userId := 4, parentOrderId := none,
                     sellerId := none, addressId := 3, totalAmount := 14,
                     status := .CANCELLED, paymentStatus := .REFUNDED,
                     isParent := true },
                   { id := 31, userId := 4, parentOrderId := some 30,
                     sellerId := some 2, addressId := 3, totalAmount := 14,
                     status := .CANCELLED, paymentStatus := .REFUNDED,
                     isParent := false }],
        orderItems := [{ id := 32, orderId := 31, productId := 1,
                         sellerId := 2, quantity := 2, price := 7,
                         status := .CANCELLED }] } 1 =
    stockOf
      { nextId := 30,
        products := [{ id := 1, sellerId := 2, price := 7, stock := 5 }],
        addresses := [{ id := 3, userId := 4 }],
        carts := [{ id := 10, userId := some 4, sessionId := none,
                    expiresAt := none }],
        cartItems := [{ id := 20, cartId := 10, productId := 1, quantity := 2,
                        reservationExpiresAt := none }],
        orders := [], orderItems := [] } 1 :=
  createOrder_cancelOrder_roundtrip
    { nextId := 30,
      products := [{ id := 1, sellerId := 2, price := 7, stock := 5 }],
      addresses := [{ id := 3, userId := 4 }],
      carts := [{ id := 10, userId := some 4, sessionId := none,
                  expiresAt := none }],
      cartItems := [{ id := 20, cartId := 10, productId := 1, quantity := 2,
                      reservationExpiresAt := none }],
      orders := [], orderItems := [] }
    { nextId := 33,
      products := [{ id := 1, sellerId := 2, price := 7, stock := 3 }],
      addresses := [{ id := 3, userId := 4 }],
      carts := [{ id := 10, userId := some 4, sessionId := none,
                  expiresAt := none }],
      cartItems := [],
      orders := [{ id := 30, userId := 4, parentOrderId := none,
                   sellerId := none, addressId := 3, totalAmount := 14,
                   status := .PENDING, paymentStatus := .PENDING,
                   isParent := true },
                 { id := 31, userId := 4, parentOrderId := some 30,
                   sellerId := some 2, addressId := 3, totalAmount := 14,
                   status := .PENDING, paymentStatus := .PENDING,
                   isParent := false }],
      orderItems := [{ id := 32, orderId := 31, productId := 1,
                       sellerId := 2, quantity := 2, price := 7,
                       status := .PENDING }] }
    { nextId := 33,
      products := [{ id := 1, sellerId := 2, price := 7, stock := 5 }],
      addresses := [{ id := 3, userId := 4 }],
      carts := [{ id := 10, userId := some 4, sessionId := none,
                  expiresAt := none }],
      cartItems := [],
      orders := [{ id := 30, userId := 4, parentOrderId := none,
                   sellerId := none, addressId := 3, totalAmount := 14,
                   status := .CANCELLED, paymentStatus := .REFUNDED,
                   isParent := true },
                 { id := 31, userId := 4, parentOrderId := some 30,
                   sellerId := some 2, addressId := 3, totalAmount := 14,
                   status := .CANCELLED, paymentStatus := .REFUNDED,
                   isParent := false }],
      orderItems := [{ id := 32, orderId := 31, productId := 1,
                       sellerId := 2, quantity := 2, price := 7,
                       status := .CANCELLED }] }
    0 4 3 30
    { id := 10, userId := some 4, sessionId := none, expiresAt := none }
    ⟨by simp, by simp, by simp⟩ (by decide) (by decide) (by decide) 1

/-! ### Claim C2: createOrder is atomic -/

/-- Run `createOrder` as an endpoint call: a thrown error rolls the
transaction back, so the caller observes the pre-call store. -/
def runCreateOrder (db : DB) (now userId addressId : Nat) : DB :=
  match createOrder db now userId addressId with
  | .ok r => r.1
  | .error _ => db

/-- **C2.** `createOrder` is atomic: on any failure (for example
InsufficientStock on one item) the whole operation aborts and the caller's
state is the input state — no parent order, sub-order, order item or stock
change survives; on success the cart is cleared, every item across every
sub-order was deducted (stock drops by exactly the cart's per-product
demand), and the PENDING parent order exists. -/
theorem createOrder_atomic (db : DB) (now u a : Nat) (cart : Cart)
    (hwf : WFdb db) (hcart : findUserCart db u = some cart) :
    (∀ e, createOrder db now u a = .error e →
      runCreateOrder db now u a = db)
    ∧ (∀ db' oid, createOrder db now u a = .ok (db', oid) →
        db'.cartItems =
          db.cartItems.filter (fun it => !(it.cartId == cart.id))
        ∧ (∀ pid, stockOf db' pid = (stockOf db pid).map (fun x =>
            x - (cartQty (db.cartItems.filter
              (fun it => it.cartId == cart.id)) pid : Int)))
        ∧ (∃ parentRow : Order,
            db'.orders.find? (fun o => o.id == oid && o.userId == u)
              = some parentRow
            ∧ parentRow.status = .PENDING ∧ parentRow.isParent = true)) := by
  constructor
  · intro e he
    unfold runCreateOrder
    rw [he]
  · intro db' oid hok
    obtain ⟨_, hcc, hstock, hparent, _, _, _⟩ :=
      createOrder_effect db db' now u a oid cart hwf hcart hok
    exact ⟨hcc, hstock, hparent⟩

/-- Witness for C2: the success side on a two-unit order (cart cleared,
stock 5 → 3, PENDING parent), and the rollback side on an
insufficient-stock order (cart demands 9 > 5). -/
theorem createOrder_atomic_witness :
    (∃ parentRow : Order,
      (List.find? (fun o => o.id == 30 && o.userId == 4)
        [({ id := 30, userId := 4, parentOrderId := none,
            sellerId := none, addressId := 3, totalAmount := 14,
            status := .PENDING, paymentStatus := .PENDING,
            isParent := true } : Order),
         { id := 31, userId := 4, parentOrderId := some 30,
           sellerId := some 2, addressId := 3, totalAmount := 14,
           status := .PENDING, paymentStatus := .PENDING,
           isParent := false }]) = some parentRow
      ∧ parentRow.status = .PENDING ∧ parentRow.isParent = true)
    ∧ runCreateOrder
        { nextId := 30,
          products := [{ id := 1, sellerId := 2, price := 7, stock := 5 }],
          addresses := [{ id := 3, userId := 4 }],
          carts := [{ id := 10, userId := some 4, sessionId := none,
                      expiresAt := none }],
          cartItems := [{ id := 20, cartId := 10, productId := 1,
                          quantity := 9,
                          reservationExpiresAt := none }],
          orders := [], orderItems := [] } 0 4 3 =
        { nextId := 30,
          products := [{ id := 1, sellerId := 2, price := 7, stock := 5 }],
          addresses := [{ id := 3, userId := 4 }],
          carts := [{ id := 10, userId := some 4, sessionId := none,
                      expiresAt := none }],
          cartItems := [{ id := 20, cartId := 10, productId := 1,
                          quantity := 9,
                          reservationExpiresAt := none }],
          orders := [], orderItems := [] } := by
  constructor
  · have h := ((createOrder_atomic
      { nextId := 30,
        products := [{ id := 1, sellerId := 2, price := 7, stock := 5 }],
        addresses := [{ id := 3, userId := 4 }],
        carts := [{ id := 10, userId := some 4, sessionId := none,
                    expiresAt := none }],
        cartItems := [{ id := 20, cartId := 10, productId := 1,
                        quantity := 2, reservationExpiresAt := none }],
        orders := [], orderItems := [] }
      0 4 3
      { id := 10, userId := some 4, sessionId := none, expiresAt := none }
      ⟨by simp, by simp, by simp⟩ (by decide)).2
      { nextId := 33,
        products := [{ id := 1, sellerId := 2, price := 7, stock := 3 }],
        addresses := [{ id := 3, userId := 4 }],
        carts := [{ id := 10, userId := some 4, sessionId := none,
                    expiresAt := none }],
        cartItems := [],
        orders := [{ id := 30, userId := 4, parentOrderId := none,
                     sellerId := none, addressId := 3, totalAmount := 14,
                     status := .PENDING, paymentStatus := .PENDING,
                     isParent := true },
                   { id := 31, userId := 4, parentOrderId := some 30,
                     sellerId := some 2, addressId := 3, totalAmount := 14,
                     status := .PENDING, paymentStatus := .PENDING,
                     isParent := false }],
        orderItems := [{ id := 32, orderId := 31, productId := 1,
                         sellerId := 2, quantity := 2, price := 7,
                         status := .PENDING }] }
      30 (by decide)).2.2
    exact h
  · exact (createOrder_atomic
      { nextId := 30,
        products := [{ id := 1, sellerId := 2, price := 7, stock := 5 }],
        addresses := [{ id := 3, userId := 4 }],
        carts := [{ id := 10, userId := some 4, sessionId := none,
                    expiresAt := none }],
        cartItems := [{ id := 20, cartId := 10, productId := 1,
                        quantity := 9, reservationExpiresAt := none }],
        orders := [], orderItems := [] }
      0 4 3
      { id := 10, userId := some 4, sessionId := none, expiresAt := none }
      ⟨by simp, by simp, by simp⟩ (by decide)).1 .insufficientStock
      (by decide)

end ECom
